import Mathlib

/-!
# dbmservice: service registration, heartbeat and membership watch

A shallow embedding of the Go repository `kennethpensopay/dbmservice`:

* the legacy root package (`dbmservice.go`) lives in namespace `Dbmservice.Legacy`;
* `configs/config.go` lives in `Dbmservice.Configs`;
* `internal/discovery/discovery.go` lives in `Dbmservice.Discovery`;
* `pkg/dbmservice/dbmservice.go` lives in `Dbmservice.Pkg`.

Go strings are modelled as lists of Unicode code points, Go `int` and
`time.Duration` as `Int` (64-bit wrap-around is made explicit where the code
multiplies), and everything the program does to the outside world (bind,
register, spawn a goroutine, terminate) is recorded in an ordered list of
effects.  The responses of the outside world are explicit arguments.
-/

namespace Dbmservice

/-! ## Go standard library: strings -/

/-- A Go string, as the list of its code points. -/
abbrev Str := List Char

/-- Go `unicode.IsSpace`: the Latin-1 white space characters and the
`White_Space` property for the code points above Latin-1. -/
def IsSpace (c : Char) : Bool :=
  let r := c.toNat
  if r ≤ 0xFF then
    r == 0x09 || r == 0x0A || r == 0x0B || r == 0x0C || r == 0x0D || r == 0x20
      || r == 0x85 || r == 0xA0
  else
    r == 0x1680 || (0x2000 ≤ r && r ≤ 0x200A) || r == 0x2028 || r == 0x2029
      || r == 0x202F || r == 0x205F || r == 0x3000

/-- Go `strings.TrimSpace`: all leading and trailing white space removed. -/
def TrimSpace (s : Str) : Str :=
  (s.dropWhile IsSpace).rdropWhile IsSpace

/-- Scanning loop of `strings.ReplaceAll` for a non-empty pattern: `skip` counts
the characters of a match that are still to be consumed. -/
def replaceGo (old new : Str) : Nat → Str → Str
  | _, [] => []
  | skip + 1, _ :: cs => replaceGo old new skip cs
  | 0, c :: cs =>
    if old.isPrefixOf (c :: cs) then new ++ replaceGo old new (old.length - 1) cs
    else c :: replaceGo old new 0 cs

/-- Go `strings.ReplaceAll`: every non-overlapping occurrence of `old`, from the
left, is replaced by `new`; an empty `old` matches before every code point and
at the end of the string. -/
def ReplaceAll (s old new : Str) : Str :=
  if old.isEmpty then new ++ s.flatMap (fun c => c :: new)
  else replaceGo old new 0 s

/-- Go `unicode.ToLower` on an ASCII code point. -/
def asciiToLower (c : Char) : Char :=
  if 'A' ≤ c ∧ c ≤ 'Z' then Char.ofNat (c.toNat + 32) else c

/-- Go `strings.ToLower`: ASCII letters are lowered directly, every other code
point goes through the Unicode case tables, which are the parameter
`unicodeLower`. -/
def ToLower (unicodeLower : Char → Char) (s : Str) : Str :=
  s.map (fun c => if c.toNat < 0x80 then asciiToLower c else unicodeLower c)

/-! ## Go standard library: strconv -/

/-- The decimal digit of a number below ten. -/
def digitChar (d : Nat) : Char :=
  match d with
  | 0 => '0' | 1 => '1' | 2 => '2' | 3 => '3' | 4 => '4'
  | 5 => '5' | 6 => '6' | 7 => '7' | 8 => '8' | _ => '9'

/-- The digit loop of `strconv.FormatUint` in base ten: digits are produced
from the least significant one and put in front of `acc`. -/
def formatBits : Nat → Nat → Str → Str
  | 0, _, acc => acc
  | fuel + 1, u, acc =>
    if u < 10 then digitChar u :: acc
    else formatBits fuel (u / 10) (digitChar (u % 10) :: acc)

/-- Decimal form of a natural number. -/
def formatUint (u : Nat) : Str := formatBits (u + 1) u []

/-- Go `strconv.Itoa` (and the verb `%d` of `fmt`). -/
def Itoa (i : Int) : Str :=
  if i < 0 then '-' :: formatUint i.natAbs else formatUint i.toNat

/-- Value of a decimal digit, `none` for any other character. -/
def digitVal (c : Char) : Option Nat :=
  if '0' ≤ c ∧ c ≤ '9' then some (c.toNat - 48) else none

/-- The digit loop of `strconv.Atoi`. -/
def parseDigits : Str → Nat → Option Nat
  | [], acc => some acc
  | c :: cs, acc =>
    match digitVal c with
    | some d => parseDigits cs (acc * 10 + d)
    | none => none

/-- Smallest value of a 64-bit Go `int`. -/
def minInt : Int := -9223372036854775808

/-- Largest value of a 64-bit Go `int`. -/
def maxInt : Int := 9223372036854775807

/-- Go `strconv.Atoi` on a 64-bit platform: an optional sign followed by at
least one decimal digit, and a value that fits a 64-bit `int`; `none` stands
for a non-nil error. -/
def Atoi (s : Str) : Option Int :=
  match s with
  | [] => none
  | c :: rest =>
    let ds := if c = '-' ∨ c = '+' then rest else s
    if ds.isEmpty then none
    else
      match parseDigits ds 0 with
      | none => none
      | some n =>
        let v : Int := if c = '-' then -(n : Int) else (n : Int)
        if minInt ≤ v ∧ v ≤ maxInt then some v else none

/-- Go `strconv.ParseBool`. -/
def ParseBool (s : Str) : Option Bool :=
  if s = "1".toList ∨ s = "t".toList ∨ s = "T".toList ∨ s = "TRUE".toList
      ∨ s = "true".toList ∨ s = "True".toList then some true
  else if s = "0".toList ∨ s = "f".toList ∨ s = "F".toList ∨ s = "FALSE".toList
      ∨ s = "false".toList ∨ s = "False".toList then some false
  else none

/-- Go `int64` multiplication result: the mathematical value wrapped into the
range of a signed 64-bit integer. -/
def wrapInt64 (x : Int) : Int :=
  (x + 9223372036854775808) % 18446744073709551616 - 9223372036854775808

/-! ## Go standard library: time and net -/

/-- Go `time.Duration`: a signed 64-bit count of nanoseconds. -/
abbrev Duration := Int

/-- Go `time.Second`. -/
def Second : Duration := 1000000000

/-- Go `bytealg.IndexByteString`: position of the first occurrence. -/
def indexByte (s : Str) (c : Char) : Option Nat :=
  match s with
  | [] => none
  | x :: xs => if x = c then some 0 else (indexByte xs c).map (· + 1)

/-- Go `bytealg.LastIndexByteString`: position of the last occurrence. -/
def lastIndexByte (s : Str) (c : Char) : Option Nat :=
  match s with
  | [] => none
  | x :: xs =>
    match lastIndexByte xs c with
    | some i => some (i + 1)
    | none => if x = c then some 0 else none

/-- Go `net.SplitHostPort`; `none` stands for a non-nil error. -/
def SplitHostPort (hostport : Str) : Option (Str × Str) :=
  match lastIndexByte hostport ':' with
  | none => none
  | some i =>
    if hostport.head? = some '[' then
      match indexByte hostport ']' with
      | none => none
      | some e =>
        if e + 1 = hostport.length then none
        else if e + 1 = i then
          if (indexByte (hostport.drop 1) '[').isSome then none
          else if (indexByte (hostport.drop (e + 1)) ']').isSome then none
          else some ((hostport.take e).drop 1, hostport.drop (i + 1))
        else none
    else
      if (indexByte (hostport.take i) ':').isSome then none
      else if (indexByte hostport '[').isSome then none
      else if (indexByte hostport ']').isSome then none
      else some (hostport.take i, hostport.drop (i + 1))

/-- Go `net.JoinHostPort`, which renders the address of a TCP listener. -/
def JoinHostPort (host port : Str) : Str :=
  if (indexByte host ':').isSome then "[".toList ++ host ++ "]:".toList ++ port
  else host ++ ":".toList ++ port

/-- The address handed to `net.Listen`: `fmt.Sprintf("%s:%d", address, port)`. -/
def listenAddress (address : Str) (port : Int) : Str :=
  address ++ ":".toList ++ Itoa port

/-! ## Data model -/

/-- The fields of `consul.Config` the program reads and writes. -/
structure ConsulConfig where
  Address : Str
  Scheme : Str
deriving DecidableEq, Repr

/-- Result of `consul.DefaultConfig()` when no `CONSUL_HTTP_*` variable
overrides it. -/
def DefaultConfig : ConsulConfig :=
  { Address := "127.0.0.1:8500".toList, Scheme := "http".toList }

/-- Go `consul.AgentServiceCheck`, restricted to the fields the program sets.
`TTL` and `DeregisterCriticalServiceAfter` hold the duration whose rendering
`Duration.String()` is sent to the backend. -/
structure AgentServiceCheck where
  CheckID : Str
  FailuresBeforeCritical : Int
  DeregisterCriticalServiceAfter : Duration
  TTL : Duration
  TLSSkipVerify : Bool
deriving DecidableEq, Repr

/-- Go `consul.AgentServiceRegistration`: the registration record. -/
structure AgentServiceRegistration where
  ID : Str
  Name : Str
  Tags : List Str
  Address : Str
  Port : Int
  Check : AgentServiceCheck
deriving DecidableEq, Repr

/-- Go `consul.AgentService`: the service part of a membership entry. -/
structure AgentService where
  ID : Str
  Service : Str
  Tags : List Str
  Port : Int
  Address : Str
deriving DecidableEq, Repr

/-- Go `consul.ServiceEntry`: one entry of a membership snapshot. The entry
pointers of a snapshot and the `Service` pointer of an entry are non-nil, as
in every snapshot the backend client decodes. -/
structure ServiceEntry where
  Service : AgentService
deriving DecidableEq, Repr

/-- The dynamically typed `result any` handed to a watch handler: either a
snapshot `[]*consul.ServiceEntry` or a value of any other type. -/
inductive WatchResult where
  | serviceEntries (msg : List ServiceEntry)
  | other
deriving DecidableEq, Repr

namespace Legacy

/-- The legacy `Service` of `dbmservice.go`; `listener` holds the bound
address `listener.Addr().String()`, `none` being the nil listener. The consul
client is the outside world and is not part of the state. -/
structure Service where
  name : Str
  port : Int
  tags : List Str
  listener : Option Str
  consulConfig : ConsulConfig
  healthCheckTTL : Duration
deriving DecidableEq, Repr

end Legacy

namespace Configs

/-- The `ServiceConfig` of `configs/config.go`. -/
structure ServiceConfig where
  Name : Str
  Address : Str
  Port : Int
  Tags : List Str
deriving DecidableEq, Repr

/-- The `DiscoveryConfig` of `configs/config.go`. -/
structure DiscoveryConfig where
  Address : Str
  Scheme : Str
  HealthCheckTTL : Duration
  EnablePlanWatch : Bool
deriving DecidableEq, Repr

/-- The `config` of `configs/config.go`, as filled in by `envconfig.Process`. -/
structure config where
  Service : ServiceConfig
  Consul : DiscoveryConfig
  Debug : Bool
deriving DecidableEq, Repr

end Configs

namespace Discovery

/-- The `ServiceDiscovery` of `internal/discovery/discovery.go`, without the
consul client. -/
structure ServiceDiscovery where
  HealthCheckTTL : Duration
  IsPlanWatchEnabled : Bool
  Config : ConsulConfig
deriving DecidableEq, Repr

end Discovery

namespace Pkg

/-- The `Service` of `pkg/dbmservice/dbmservice.go`; `listener` holds the
bound address of the listener, `none` being the nil listener. -/
structure Service where
  listener : Option Str
  config : Configs.ServiceConfig
  discovery : Discovery.ServiceDiscovery
deriving DecidableEq, Repr

end Pkg

/-- What the program does to the outside world, in program order. A `go`
statement is recorded at the point where the goroutine is spawned, with the
arguments (or receiver state) the goroutine gets. -/
inductive Effect where
  /-- The call `net.Listen("tcp", hostport)`. -/
  | listen (hostport : Str)
  /-- The call `watch.Parse` for the service watch on `service`. -/
  | watchParse (service : Str)
  /-- The statement `go func() { plan.RunWithConfig(...) }()`, whose handler compares
  against `selfID`. -/
  | goRunPlan (selfID : Str)
  /-- The legacy statement `go s.enablePlanWatch(serviceID)`. -/
  | goEnablePlanWatch (serviceID : Str)
  /-- The call `Agent().ServiceRegister(reg)` and whether it returned nil. -/
  | serviceRegister (reg : AgentServiceRegistration) (ok : Bool)
  /-- The statement `go d.probeHealthCheck(checkID)`. -/
  | goProbeHealthCheck (d : Discovery.ServiceDiscovery) (checkID : Str)
  /-- The legacy statement `go s.updateHealthCheck()`. -/
  | goUpdateHealthCheck (s : Legacy.Service)
  /-- The call `Agent().UpdateTTL(checkID, "healthy", passing)` and whether it
  returned nil. -/
  | updateTTL (checkID : Str) (ok : Bool)
  /-- Termination by `log.Fatal`. -/
  | fatal
  /-- A run-time panic. -/
  | panic
deriving DecidableEq, Repr

/-- The heartbeat loop shared by `updateHealthCheck` and `probeHealthCheck`:
one `UpdateTTL` per tick, terminating the process at the first error. The
list holds the backend's answers to the successive calls. -/
def heartbeatLoop (checkID : Str) : List Bool → List Effect
  | [] => []
  | true :: rs => Effect.updateTTL checkID true :: heartbeatLoop checkID rs
  | false :: _ => [Effect.updateTTL checkID false, Effect.fatal]

/-- Go `time.NewTicker(d)` panics unless `d` is positive. -/
def tickerPanics (d : Duration) : Bool := decide (d ≤ 0)

/-! ## The legacy package `dbmservice.go` -/

namespace Legacy

/-- The method `Service.serviceID`:
`fmt.Sprintf("%s-%d", strings.ReplaceAll(s.name, ".", "-"), s.port)`. -/
def Service.serviceID (s : Service) : Str :=
  ReplaceAll s.name ".".toList "-".toList ++ "-".toList ++ Itoa s.port

/-- The handler installed by `enablePlanWatch`: the services it logs as
"Service instance joined" for one delivered result. -/
def planHandler (serviceID : Str) (result : WatchResult) : List AgentService :=
  match result with
  | .serviceEntries msg =>
    let msgLength := msg.length
    if msgLength > 0 then
      match msg[msgLength - 1]? with
      | some entry => if entry.Service.ID ≠ serviceID then [entry.Service] else []
      | none => []
    else []
  | .other => []

/-- The goroutine `enablePlanWatch`: parse the plan, then spawn its run loop;
`parseOk` tells whether `watch.Parse` returned without error. -/
def Service.enablePlanWatch (s : Service) (serviceID : Str) (parseOk : Bool) :
    List Effect :=
  if parseOk then [Effect.watchParse s.name, Effect.goRunPlan serviceID]
  else [Effect.watchParse s.name, Effect.fatal]

/-- The goroutine `updateHealthCheck`: the check ID is recomputed from the
receiver, a ticker of half the TTL is created, and the loop runs. -/
def Service.updateHealthCheck (s : Service) (responses : List Bool) : List Effect :=
  let checkId := s.serviceID ++ "_health".toList
  if tickerPanics (s.healthCheckTTL.tdiv 2) then [Effect.panic]
  else heartbeatLoop checkId responses

/-- Lines 83-105 of `registerService`: the registration record, once the bound
address has been split into `address` and the port `port`, which is also
written to `s.port` before the identifier is derived. -/
def Service.svcReg (s : Service) (address : Str) (port : Int) : AgentServiceRegistration :=
  let s1 : Service := { s with port := port }
  { ID := s1.serviceID
    Name := s.name
    Tags := s.tags
    Address := address
    Port := port
    Check :=
      { CheckID := s1.serviceID ++ "_health".toList
        FailuresBeforeCritical := 3
        DeregisterCriticalServiceAfter := s.healthCheckTTL
        TTL := s.healthCheckTTL
        TLSSkipVerify := true } }

/-- Lines 113-115 of `registerService`: the watcher goroutine is spawned when
`ENABLE_PLAN_WATCH` parses to `true`. -/
def watchSpawn (enablePlanWatchEnv : Str) (serviceID : Str) : List Effect :=
  if ParseBool (TrimSpace enablePlanWatchEnv) = some true then
    [Effect.goEnablePlanWatch serviceID]
  else []

/-- The method `registerService`. `enablePlanWatchEnv` is the value of
`ENABLE_PLAN_WATCH`, `registerOk` tells whether the backend accepted the
registration. The result is the receiver afterwards and the effects in
program order. -/
def Service.registerService (s : Service) (enablePlanWatchEnv : Str)
    (registerOk : Bool) : Service × List Effect :=
  match s.listener with
  | none => (s, [Effect.panic])
  | some bound =>
    match SplitHostPort bound with
    | none => (s, [Effect.fatal])
    | some (address, servicePortStr) =>
      if address = [] ∨ servicePortStr = [] then (s, [Effect.fatal])
      else
        match Atoi (TrimSpace servicePortStr) with
        | none => (s, [Effect.fatal])
        | some port =>
          let s1 : Service := { s with port := port }
          let svcReg := Service.svcReg s address port
          let watch := watchSpawn enablePlanWatchEnv svcReg.ID
          if registerOk then
            (s1, watch ++ [Effect.serviceRegister svcReg true, Effect.goUpdateHealthCheck s1])
          else
            (s1, watch ++ [Effect.serviceRegister svcReg false, Effect.fatal])

/-- The method `Start`, up to the accept loop: `serviceAddressEnv` is the value
of `SERVICE_ADDRESS`, `listen` the outcome of `net.Listen` on an address. -/
def Service.Start (s : Service) (serviceAddressEnv : Str) (listen : Str → Option Str)
    (enablePlanWatchEnv : Str) (registerOk : Bool) : Service × List Effect :=
  let serviceAddress :=
    if TrimSpace serviceAddressEnv = [] then "localhost".toList
    else TrimSpace serviceAddressEnv
  let hostport := listenAddress serviceAddress s.port
  match listen hostport with
  | none => (s, [Effect.listen hostport, Effect.fatal])
  | some bound =>
    let r := Service.registerService { s with listener := some bound }
      enablePlanWatchEnv registerOk
    (r.1, Effect.listen hostport :: r.2)

/-- The function `createConsulConfig`: `consulCfg` is the result of
`consul.DefaultConfig()`, the other arguments are the values of `CONSUL_ADDRESS`
and `CONSUL_SCHEME`. -/
def createConsulConfig (consulCfg : ConsulConfig) (addressEnv schemeEnv : Str) :
    ConsulConfig :=
  let cfg1 : ConsulConfig :=
    if TrimSpace addressEnv ≠ [] then { consulCfg with Address := TrimSpace addressEnv }
    else consulCfg
  if TrimSpace schemeEnv ≠ [] then { cfg1 with Scheme := TrimSpace schemeEnv }
  else cfg1

/-- The function `getServicePort`; the argument is the value of `SERVICE_PORT`
(empty when the variable is not set). -/
def getServicePort (env : Str) : Int :=
  match Atoi (TrimSpace env) with
  | none => 0
  | some portInt => if portInt < 0 ∨ portInt > 65535 then 0 else portInt

/-- The function `getHealthCheckTTL`; the argument is the value of
`CONSUL_TTL_IN_SECONDS` (empty when the variable is not set). The product
`time.Duration(ttl) * time.Second` is a 64-bit multiplication. -/
def getHealthCheckTTL (env : Str) : Duration :=
  match Atoi (TrimSpace env) with
  | some ttl => if ttl ≥ 5 then wrapInt64 (ttl * Second) else 8 * Second
  | none => 8 * Second

end Legacy

/-! ## The package `configs` -/

namespace Configs

/-- The function `LoadConfigs`, after `envconfig.Process` has filled in `cfg`.
`moduleMD5` is `modinfo.ModInfo().ModuleNameAsMD5Sum()`. -/
def LoadConfigs (unicodeLower : Char → Char) (moduleMD5 : Str) (cfg : config) :
    ServiceConfig × DiscoveryConfig :=
  let name :=
    if TrimSpace cfg.Service.Name = [] then
      TrimSpace (ToLower unicodeLower (moduleMD5 ++ ".services.local".toList))
    else cfg.Service.Name
  let address := TrimSpace (ToLower unicodeLower cfg.Service.Address)
  let port := if cfg.Service.Port < 0 ∨ cfg.Service.Port > 65535 then 0 else cfg.Service.Port
  ({ cfg.Service with Name := name, Address := address, Port := port },
   { cfg.Consul with
       Address := TrimSpace (ToLower unicodeLower cfg.Consul.Address)
       Scheme := TrimSpace cfg.Consul.Scheme })

end Configs

/-! ## The package `internal/discovery` -/

namespace Discovery

/-- The function `createConsulConfig`; `consulCfg` is the result of
`consul.DefaultConfig()`. -/
def createConsulConfig (unicodeLower : Char → Char) (consulCfg : ConsulConfig)
    (cfg : Configs.DiscoveryConfig) : ConsulConfig :=
  let cfg1 : ConsulConfig :=
    if cfg.Address ≠ [] ∧ cfg.Address ≠ TrimSpace (ToLower unicodeLower consulCfg.Address) then
      { consulCfg with Address := cfg.Address }
    else consulCfg
  if cfg.Scheme ≠ [] ∧ ToLower unicodeLower cfg.Scheme ≠ ToLower unicodeLower consulCfg.Scheme then
    { cfg1 with Scheme := cfg.Scheme }
  else cfg1

/-- The function `NewServiceDiscovery`; `none` is the fatal exit taken when
`consul.NewClient` fails (`clientOk = false`). -/
def NewServiceDiscovery (unicodeLower : Char → Char) (consulCfg : ConsulConfig)
    (clientOk : Bool) (cfg : Configs.DiscoveryConfig) : Option ServiceDiscovery :=
  let serviceDiscovery : ServiceDiscovery :=
    { HealthCheckTTL := cfg.HealthCheckTTL
      IsPlanWatchEnabled := cfg.EnablePlanWatch
      Config := createConsulConfig unicodeLower consulCfg cfg }
  if clientOk then some serviceDiscovery else none

/-- The handler installed by `RegisterService`: the services it logs as
"Service instance joined" for one delivered result. -/
def planHandler (service : AgentServiceRegistration) (result : WatchResult) :
    List AgentService :=
  match result with
  | .serviceEntries msg =>
    let msgLength := msg.length
    if msgLength > 0 then
      match msg[msgLength - 1]? with
      | some entry => if entry.Service.ID ≠ service.ID then [entry.Service] else []
      | none => []
    else []
  | .other => []

/-- The goroutine `probeHealthCheck`. -/
def ServiceDiscovery.probeHealthCheck (d : ServiceDiscovery) (checkID : Str)
    (responses : List Bool) : List Effect :=
  if tickerPanics (d.HealthCheckTTL.tdiv 2) then [Effect.panic]
  else heartbeatLoop checkID responses

/-- How a call of `RegisterService` ends. -/
inductive Outcome where
  | returnedNil
  | returnedError
  | exited
deriving DecidableEq, Repr

/-- The method `RegisterService`: `parseOk` tells whether `watch.Parse`
succeeded, `registerOk` whether the backend accepted the registration. -/
def ServiceDiscovery.RegisterService (d : ServiceDiscovery)
    (service : AgentServiceRegistration) (parseOk registerOk : Bool) :
    Outcome × List Effect :=
  if d.IsPlanWatchEnabled ∧ ¬ parseOk then
    (Outcome.exited, [Effect.watchParse service.Name, Effect.fatal])
  else
    let watch : List Effect :=
      if d.IsPlanWatchEnabled then
        [Effect.watchParse service.Name, Effect.goRunPlan service.ID]
      else []
    if registerOk then
      (Outcome.returnedNil,
        watch ++ [Effect.serviceRegister service true,
                  Effect.goProbeHealthCheck d service.Check.CheckID])
    else
      (Outcome.returnedError, watch ++ [Effect.serviceRegister service false])

end Discovery

/-! ## The package `pkg/dbmservice` -/

namespace Pkg

/-- The answers of the outside world to one call of `RegisterService`. -/
structure World where
  /-- The outcome of `net.Listen` on an address: the bound address of the
  listener, or `none` for an error. -/
  listen : Str → Option Str
  /-- Whether `watch.Parse` succeeds. -/
  parseOk : Bool
  /-- Whether the backend accepts the registration. -/
  registerOk : Bool

/-- Lines 49-63 of `RegisterService`: the registration record built from the
resolved configuration. -/
def Service.svcReg (s : Service) : AgentServiceRegistration :=
  let serviceID :=
    TrimSpace (ReplaceAll s.config.Name ".".toList "-".toList ++ "-".toList ++ Itoa s.config.Port)
  { ID := serviceID
    Name := s.config.Name
    Tags := s.config.Tags
    Address := s.config.Address
    Port := s.config.Port
    Check :=
      { CheckID := serviceID ++ "_health".toList
        FailuresBeforeCritical := 3
        DeregisterCriticalServiceAfter := s.discovery.HealthCheckTTL
        TTL := s.discovery.HealthCheckTTL
        TLSSkipVerify := true } }

/-- Lines 39-47 of `RegisterService`: the port of the bound address is written
to `s.config.Port`; the flag tells whether the method goes on (`false` is the
fatal exit). -/
def Service.resolvePort (s : Service) (bound : Str) : Service × Bool :=
  match SplitHostPort bound with
  | none => (s, false)
  | some (_, portStr) =>
    if TrimSpace portStr = [] then (s, false)
    else
      match Atoi (TrimSpace portStr) with
      | none => ({ s with config := { s.config with Port := 0 } }, false)
      | some port =>
        ({ s with config := { s.config with Port := port } },
          decide (Itoa port = TrimSpace portStr))

/-- The method `RegisterService`: the receiver afterwards and the effects in
program order. -/
def Service.RegisterService (s : Service) (w : World) : Service × List Effect :=
  let hostport := listenAddress s.config.Address s.config.Port
  match w.listen hostport with
  | none => (s, [Effect.listen hostport, Effect.fatal])
  | some bound =>
    let r := Service.resolvePort { s with listener := some bound } bound
    if r.2 then
      let d := Discovery.ServiceDiscovery.RegisterService r.1.discovery
        (Service.svcReg r.1) w.parseOk w.registerOk
      if d.1 = Discovery.Outcome.returnedError then
        (r.1, Effect.listen hostport :: d.2 ++ [Effect.fatal])
      else (r.1, Effect.listen hostport :: d.2)
    else (r.1, [Effect.listen hostport, Effect.fatal])

/-- The function `NewService`: the configuration is loaded and handed to
`discovery.NewServiceDiscovery`. -/
def NewService (unicodeLower : Char → Char) (moduleMD5 : Str) (consulCfg : ConsulConfig)
    (clientOk : Bool) (cfg : Configs.config) : Option Service :=
  let loaded := Configs.LoadConfigs unicodeLower moduleMD5 cfg
  match Discovery.NewServiceDiscovery unicodeLower consulCfg clientOk loaded.2 with
  | none => none
  | some d => some { listener := none, config := loaded.1, discovery := d }

end Pkg

/-! ## Runs -/

/-- The `UpdateTTL` calls (and the exit that follows a failed one) issued by
the heartbeat goroutine an effect spawns; `responses` holds the answers of the
backend. -/
def heartbeatOf (responses : List Bool) : Effect → List Effect
  | Effect.goUpdateHealthCheck s => Legacy.Service.updateHealthCheck s responses
  | Effect.goProbeHealthCheck d checkID =>
    Discovery.ServiceDiscovery.probeHealthCheck d checkID responses
  | _ => []

/-- A run: the effects of the main sequence followed by those of the heartbeat
goroutines it spawned. -/
def run (trace : List Effect) (responses : List Bool) : List Effect :=
  trace ++ trace.flatMap (heartbeatOf responses)

/-- An effect that is an `UpdateTTL` call. -/
def Effect.isUpdateTTL : Effect → Bool
  | Effect.updateTTL _ _ => true
  | _ => false

/-- An effect that spawns a heartbeat goroutine. -/
def Effect.isHeartbeatStart : Effect → Bool
  | Effect.goUpdateHealthCheck _ => true
  | Effect.goProbeHealthCheck _ _ => true
  | _ => false

/-- An effect that starts the membership watcher: parsing the plan, spawning
its run loop, or spawning the legacy `enablePlanWatch`. -/
def Effect.isWatchStart : Effect → Bool
  | Effect.watchParse _ => true
  | Effect.goRunPlan _ => true
  | Effect.goEnablePlanWatch _ => true
  | _ => false

/-- An effect that is a register call which returned success. -/
def Effect.isRegisterOk : Effect → Bool
  | Effect.serviceRegister _ ok => ok
  | _ => false

/-- An effect that is a register call. -/
def Effect.isRegister : Effect → Bool
  | Effect.serviceRegister _ _ => true
  | _ => false

/-- Every effect of kind `p` in the trace comes after a register call that
returned success. -/
def AfterRegister (p : Effect → Bool) (trace : List Effect) : Prop :=
  ∀ pre e post, trace = pre ++ e :: post → p e = true →
    ∃ r ∈ pre, Effect.isRegisterOk r = true

/-- Every effect of kind `p` in the trace comes before every register call. -/
def BeforeRegister (p : Effect → Bool) (trace : List Effect) : Prop :=
  ∀ pre e post, trace = pre ++ e :: post → p e = true →
    ∀ r ∈ pre, Effect.isRegister r = false

/-- Executable form of `AfterRegister`: `seen` tells whether a successful
register call has already been passed. -/
def afterRegisterFrom (p : Effect → Bool) : Bool → List Effect → Bool
  | _, [] => true
  | seen, e :: es =>
    (!p e || seen) && afterRegisterFrom p (seen || Effect.isRegisterOk e) es


/-! ## The identifiers as the specification words them -/

/-- The service identifier of the specification: the name with every `.`
replaced by `-`, followed by `-` and the decimal port. -/
def specServiceIdentifier (name : Str) (port : Nat) : Str :=
  name.map (fun c => if c = '.' then '-' else c) ++ "-".toList ++ (Nat.repr port).toList

/-- The health-check ID of the specification. -/
def specHealthCheckID (name : Str) (port : Nat) : Str :=
  specServiceIdentifier name port ++ "_health".toList

/-! ## Sample inputs -/

/-- A legacy service named `svc.one`, requested port 0, bound to
`127.0.0.1:8080`, with a TTL of eight seconds. -/
def sampleLegacy : Legacy.Service :=
  { name := "svc.one".toList
    port := 0
    tags := ["go".toList, "service".toList]
    listener := some "127.0.0.1:8080".toList
    consulConfig := DefaultConfig
    healthCheckTTL := 8 * Second }

/-- A service of `pkg/dbmservice` named `svc.one`, requested port 0, not yet
bound, with the watcher enabled and a TTL of ten seconds. -/
def samplePkg : Pkg.Service :=
  { listener := none
    config :=
      { Name := "svc.one".toList
        Address := "localhost".toList
        Port := 0
        Tags := ["go".toList, "service".toList] }
    discovery :=
      { HealthCheckTTL := 10 * Second
        IsPlanWatchEnabled := true
        Config := DefaultConfig } }

/-- An outside world in which every bind yields the address `bound`. -/
def sampleWorld (bound : Str) (parseOk registerOk : Bool) : Pkg.World :=
  { listen := fun _ => some bound
    parseOk := parseOk
    registerOk := registerOk }

/-- A configuration as `envconfig.Process` leaves it: service `svc.one` on
`localhost` with the requested port `port`, and a backend with the scheme
`scheme` and the health-check TTL `ttl`. -/
def sampleConfig (port : Int) (scheme : Str) (ttl : Duration) : Configs.config :=
  { Service :=
      { Name := "svc.one".toList
        Address := "localhost".toList
        Port := port
        Tags := ["go".toList, "service".toList] }
    Consul :=
      { Address := "127.0.0.1:8500".toList
        Scheme := scheme
        HealthCheckTTL := ttl
        EnablePlanWatch := false }
    Debug := false }

/-! ## Lemmas on the string functions -/

theorem replaceGo_single (o n : Char) (s : Str) :
    replaceGo [o] [n] 0 s = s.map (fun c => if c = o then n else c) := by
  induction s with
  | nil => rfl
  | cons c cs ih =>
    by_cases h : c = o
    · subst h
      simp [replaceGo, List.isPrefixOf, ih]
    · have h2 : ¬ (o = c) := fun e => h e.symm
      simp [replaceGo, List.isPrefixOf, ih, h, h2]

theorem ReplaceAll_dot (s : Str) :
    ReplaceAll s ".".toList "-".toList = s.map (fun c => if c = '.' then '-' else c) := by
  show ReplaceAll s ['.'] ['-'] = _
  simp [ReplaceAll, replaceGo_single]

theorem digitVal_digitChar (d : Nat) (h : d < 10) : digitVal (digitChar d) = some d := by
  interval_cases d <;> decide

theorem isSpace_digitChar (d : Nat) : IsSpace (digitChar d) = false := by
  unfold digitChar
  split <;> decide

theorem digitChar_ne (d : Nat) : digitChar d ≠ '-' ∧ digitChar d ≠ '+' ∧ digitChar d ≠ ':'
    ∧ digitChar d ≠ '[' ∧ digitChar d ≠ ']' := by
  unfold digitChar
  split <;> decide

theorem digitChar_eq_core (d : Nat) (h : d < 10) : digitChar d = Nat.digitChar d := by
  interval_cases d <;> rfl

theorem formatBits_eq_core (fuel u : Nat) (acc : Str) :
    formatBits fuel u acc = Nat.toDigitsCore 10 fuel u acc := by
  induction fuel generalizing u acc with
  | zero => rfl
  | succ f ih =>
    unfold formatBits Nat.toDigitsCore
    by_cases h : u < 10
    · have h1 : u / 10 = 0 := by omega
      have h2 : u % 10 = u := by omega
      simp [h, h1, h2, digitChar_eq_core u h]
    · have h1 : u / 10 ≠ 0 := by omega
      simp [h, h1, ih, digitChar_eq_core (u % 10) (by omega)]

theorem formatUint_eq_repr (u : Nat) : formatUint u = (Nat.repr u).toList := by
  simp [formatUint, formatBits_eq_core, Nat.repr, Nat.toDigits, List.asString]

theorem parseDigits_formatBits (fuel u : Nat) (acc : Str) (h : u < fuel) :
    parseDigits (formatBits fuel u acc) 0 = parseDigits acc u := by
  induction fuel generalizing u acc with
  | zero => omega
  | succ f ih =>
    unfold formatBits
    by_cases hu : u < 10
    · simp [hu, parseDigits, digitVal_digitChar u hu]
    · simp only [hu, if_false]
      rw [ih (u / 10) _ (by omega)]
      simp only [parseDigits, digitVal_digitChar (u % 10) (by omega)]
      congr 1
      omega

theorem formatBits_all (P : Char → Prop) (hP : ∀ d, P (digitChar d)) (fuel u : Nat) (acc : Str)
    (hacc : ∀ c ∈ acc, P c) : ∀ c ∈ formatBits fuel u acc, P c := by
  induction fuel generalizing u acc with
  | zero => simpa [formatBits] using hacc
  | succ f ih =>
    unfold formatBits
    by_cases hu : u < 10
    · simp only [hu, if_true]
      intro c hc
      rcases List.mem_cons.1 hc with h | h
      · exact h ▸ hP u
      · exact hacc c h
    · simp only [hu, if_false]
      apply ih
      intro c hc
      rcases List.mem_cons.1 hc with h | h
      · exact h ▸ hP _
      · exact hacc c h

theorem formatBits_ne_nil (fuel u : Nat) (acc : Str) (h : 0 < fuel ∨ acc ≠ []) :
    formatBits fuel u acc ≠ [] := by
  induction fuel generalizing u acc with
  | zero =>
    rcases h with h | h
    · omega
    · simpa [formatBits] using h
  | succ f ih =>
    unfold formatBits
    by_cases hu : u < 10
    · simp [hu]
    · simp only [hu, if_false]
      exact ih _ _ (Or.inr (by simp))

theorem formatUint_ne_nil (u : Nat) : formatUint u ≠ [] :=
  formatBits_ne_nil _ _ _ (Or.inl (Nat.succ_pos u))

theorem formatUint_all (P : Char → Prop) (hP : ∀ d, P (digitChar d)) (u : Nat) :
    ∀ c ∈ formatUint u, P c :=
  formatBits_all P hP _ _ _ (by simp)

theorem parseDigits_formatUint (u : Nat) : parseDigits (formatUint u) 0 = some u := by
  unfold formatUint
  rw [parseDigits_formatBits _ _ _ (Nat.lt_succ_self u)]
  rfl

theorem Itoa_nonneg (i : Int) (h : 0 ≤ i) : Itoa i = formatUint i.toNat := by
  simp [Itoa, not_lt.2 h]

theorem Atoi_Itoa (i : Int) (h0 : 0 ≤ i) (h1 : i ≤ maxInt) : Atoi (Itoa i) = some i := by
  rw [Itoa_nonneg i h0]
  have hne := formatUint_ne_nil i.toNat
  have hall := formatUint_all (fun c => c ≠ '-' ∧ c ≠ '+') (fun d => ⟨(digitChar_ne d).1, (digitChar_ne d).2.1⟩) i.toNat
  have hp := parseDigits_formatUint i.toNat
  cases hs : formatUint i.toNat with
  | nil => exact absurd hs hne
  | cons c rest =>
    rw [hs] at hp hall
    have hc := hall c (by simp)
    have hmin : minInt ≤ i := le_trans (by decide) h0
    simp [Atoi, hc.1, hc.2, hp, Int.toNat_of_nonneg h0, hmin, h1]

theorem TrimSpace_of_ends (s : Str) (hne : s ≠ []) (hh : ∀ c ∈ s.head?, IsSpace c = false)
    (hl : ∀ c ∈ s.getLast?, IsSpace c = false) : TrimSpace s = s := by
  unfold TrimSpace
  have h1 : s.dropWhile IsSpace = s := by
    cases s with
    | nil => rfl
    | cons c cs =>
      have := hh c (by simp)
      simp [List.dropWhile, this]
  rw [h1]
  rcases List.eq_nil_or_concat s with h | ⟨l, x, h⟩
  · exact absurd h hne
  · subst h
    rw [List.concat_eq_append] at hl ⊢
    have hx : IsSpace x = false := hl x (by simp)
    exact List.rdropWhile_concat_neg _ _ _ (by simp [hx])


theorem Itoa_ne_nil (i : Int) : Itoa i ≠ [] := by
  unfold Itoa
  split
  · simp
  · exact formatUint_ne_nil _

theorem Itoa_all (P : Char → Prop) (hP : ∀ d, P (digitChar d)) (i : Int) (h0 : 0 ≤ i) :
    ∀ c ∈ Itoa i, P c := by
  rw [Itoa_nonneg i h0]
  exact formatUint_all P hP _

theorem TrimSpace_Itoa (i : Int) (h0 : 0 ≤ i) : TrimSpace (Itoa i) = Itoa i := by
  have hall := Itoa_all (fun c => IsSpace c = false) isSpace_digitChar i h0
  apply TrimSpace_of_ends _ (Itoa_ne_nil i)
  · intro c hc
    exact hall c (List.mem_of_mem_head? hc)
  · intro c hc
    exact hall c (List.mem_of_mem_getLast? hc)

theorem dropWhile_isSpace_dash (a rest : Str) :
    (a ++ '-' :: rest).dropWhile IsSpace = a.dropWhile IsSpace ++ '-' :: rest := by
  induction a with
  | nil =>
    have : IsSpace '-' = false := by decide
    simp [List.dropWhile, this]
  | cons c cs ih =>
    by_cases h : IsSpace c = true
    · simp [List.dropWhile, h, ih]
    · simp [List.dropWhile, h]

theorem rdropWhile_of_last (s : Str) (x : Char) (hx : IsSpace x = false) :
    (s ++ [x]).rdropWhile IsSpace = s ++ [x] :=
  List.rdropWhile_concat_neg _ _ _ (by simp [hx])

/-- Trimming an identifier `a ++ "-" ++ Itoa port` only removes the leading
white space of `a`. -/
theorem TrimSpace_identifier (a : Str) (port : Int) (h0 : 0 ≤ port) :
    TrimSpace (a ++ "-".toList ++ Itoa port) = a.dropWhile IsSpace ++ "-".toList ++ Itoa port := by
  have hall := Itoa_all (fun c => IsSpace c = false) isSpace_digitChar port h0
  show TrimSpace (a ++ ['-'] ++ Itoa port) = a.dropWhile IsSpace ++ ['-'] ++ Itoa port
  unfold TrimSpace
  rw [List.append_assoc, List.singleton_append, dropWhile_isSpace_dash]
  rcases List.eq_nil_or_concat (Itoa port) with h | ⟨l, x, h⟩
  · exact absurd h (Itoa_ne_nil port)
  · rw [List.concat_eq_append] at h
    have hx : IsSpace x = false := hall x (by simp [h])
    rw [h]
    have e : List.dropWhile IsSpace a ++ '-' :: (l ++ [x])
        = (List.dropWhile IsSpace a ++ '-' :: l) ++ [x] := by simp
    rw [e, rdropWhile_of_last _ _ hx]
    simp

theorem indexByte_isSome (s : Str) (c : Char) : (indexByte s c).isSome = true ↔ c ∈ s := by
  induction s with
  | nil => simp [indexByte]
  | cons x xs ih =>
    unfold indexByte
    by_cases h : x = c
    · simp [h]
    · have h2 : ¬ c = x := fun e => h e.symm
      simp [h, h2, ih]

theorem indexByte_eq_none (s : Str) (c : Char) (h : c ∉ s) : indexByte s c = none := by
  have := indexByte_isSome s c
  cases hi : indexByte s c with
  | none => rfl
  | some i => rw [hi] at this; exact absurd (this.1 rfl) h

theorem indexByte_append (h p : Str) (c : Char) (hc : c ∉ h) :
    indexByte (h ++ c :: p) c = some h.length := by
  induction h with
  | nil => simp [indexByte]
  | cons x xs ih =>
    have hx : ¬ x = c := fun e => hc (by simp [e])
    have hxs : c ∉ xs := fun e => hc (by simp [e])
    simp [indexByte, hx, ih hxs]

theorem lastIndexByte_eq_none (s : Str) (c : Char) (h : c ∉ s) : lastIndexByte s c = none := by
  induction s with
  | nil => rfl
  | cons x xs ih =>
    have hx : ¬ x = c := fun e => h (by simp [e])
    have hxs : c ∉ xs := fun e => h (by simp [e])
    simp [lastIndexByte, ih hxs, hx]

theorem lastIndexByte_append (h p : Str) (c : Char) (hc : c ∉ p) :
    lastIndexByte (h ++ c :: p) c = some h.length := by
  induction h with
  | nil => simp [lastIndexByte, lastIndexByte_eq_none p c hc]
  | cons x xs ih => simp [lastIndexByte, ih]

theorem SplitHostPort_plain (host port : Str) (h1 : ':' ∉ host) (h2 : '[' ∉ host)
    (h3 : ']' ∉ host) (p1 : ':' ∉ port) (p2 : '[' ∉ port) (p3 : ']' ∉ port) :
    SplitHostPort (host ++ ':' :: port) = some (host, port) := by
  have hl := lastIndexByte_append host port ':' p1
  have hhead : (host ++ ':' :: port).head? ≠ some '[' := by
    cases host with
    | nil => simp
    | cons x xs =>
      intro e
      simp at e
      exact h2 (by simp [e])
  have hb1 : indexByte (host ++ ':' :: port) '[' = none :=
    indexByte_eq_none _ _ (by simp [h2, p2])
  have hb2 : indexByte (host ++ ':' :: port) ']' = none :=
    indexByte_eq_none _ _ (by simp [h3, p3])
  have hc : indexByte host ':' = none := indexByte_eq_none _ _ h1
  have hhead2 : ¬ host.head? = some '[' := by
    cases host with
    | nil => simp
    | cons x xs =>
      intro e
      simp at e
      exact h2 (by simp [e])
  unfold SplitHostPort
  simp [hl, hhead, hhead2, hb1, hb2, hc]

theorem SplitHostPort_bracket (host port : Str) (h2 : '[' ∉ host)
    (h3 : ']' ∉ host) (p1 : ':' ∉ port) (p2 : '[' ∉ port) (p3 : ']' ∉ port) :
    SplitHostPort ('[' :: (host ++ ']' :: ':' :: port)) = some (host, port) := by
  have hl : lastIndexByte ('[' :: (host ++ ']' :: ':' :: port)) ':' = some (host.length + 2) := by
    have := lastIndexByte_append ('[' :: host ++ [']']) port ':' p1
    simpa using this
  have he : indexByte ('[' :: (host ++ ']' :: ':' :: port)) ']' = some (host.length + 1) := by
    have := indexByte_append ('[' :: host) (':' :: port) ']' (by simp [h3])
    simpa using this
  have hb1 : indexByte (host ++ ']' :: ':' :: port) '[' = none :=
    indexByte_eq_none _ _ (by simp [h2, p2])
  have hb2 : indexByte (':' :: port) ']' = none :=
    indexByte_eq_none _ _ (by simp [p3])
  unfold SplitHostPort
  simp [hl, he, hb1, hb2]

theorem SplitHostPort_Join (host port : Str) (h2 : '[' ∉ host)
    (h3 : ']' ∉ host) (p1 : ':' ∉ port) (p2 : '[' ∉ port) (p3 : ']' ∉ port) :
    SplitHostPort (JoinHostPort host port) = some (host, port) := by
  unfold JoinHostPort
  by_cases h : (indexByte host ':').isSome = true
  · simp only [h, if_true]
    have := SplitHostPort_bracket host port h2 h3 p1 p2 p3
    simpa using this
  · simp only [h]
    have h1 : ':' ∉ host := fun e => h ((indexByte_isSome host ':').2 e)
    have := SplitHostPort_plain host port h1 h2 h3 p1 p2 p3
    simpa using this


/-! ## Lemmas on the registration sequences -/

theorem Itoa_eq_repr (i : Int) (h0 : 0 ≤ i) : Itoa i = (Nat.repr i.toNat).toList := by
  rw [Itoa_nonneg i h0, formatUint_eq_repr]

theorem dropWhile_isSpace_dots (name : Str) :
    (name.map (fun c => if c = '.' then '-' else c)).dropWhile IsSpace
      = (name.dropWhile IsSpace).map (fun c => if c = '.' then '-' else c) := by
  induction name with
  | nil => rfl
  | cons c cs ih =>
    by_cases hd : c = '.'
    · subst hd
      have h1 : IsSpace '-' = false := by decide
      have h2 : IsSpace '.' = false := by decide
      simp [List.dropWhile, h1, h2]
    · by_cases hs : IsSpace c = true
      · simp [List.dropWhile, hd, hs, ih]
      · simp [List.dropWhile, hd, hs]

theorem Legacy.serviceID_eq_spec (s : Legacy.Service) (h0 : 0 ≤ s.port) :
    s.serviceID = specServiceIdentifier s.name s.port.toNat := by
  unfold Legacy.Service.serviceID specServiceIdentifier
  rw [ReplaceAll_dot, Itoa_eq_repr _ h0]

/-- The effects of the legacy `registerService` once the bound address has
been resolved. -/
theorem Legacy.registerService_resolved (s : Legacy.Service) (env : Str) (ok : Bool)
    (bound address portStr : Str) (port : Int) (hl : s.listener = some bound)
    (hs : SplitHostPort bound = some (address, portStr)) (ha : address ≠ [])
    (hp : portStr ≠ []) (hport : Atoi (TrimSpace portStr) = some port) :
    s.registerService env ok =
      ({ s with port := port },
        Legacy.watchSpawn env (s.svcReg address port).ID ++
          [Effect.serviceRegister (s.svcReg address port) ok,
            if ok then Effect.goUpdateHealthCheck { s with port := port } else Effect.fatal]) := by
  cases ok <;> simp [Legacy.Service.registerService, hl, hs, ha, hp, hport]

/-- The legacy `registerService` either resolves the bound address or ends
with a single terminating effect. -/
theorem Legacy.registerService_cases (s : Legacy.Service) (env : Str) (ok : Bool) :
    (∃ bound address portStr port, s.listener = some bound ∧
        SplitHostPort bound = some (address, portStr) ∧ address ≠ [] ∧ portStr ≠ [] ∧
        Atoi (TrimSpace portStr) = some port) ∨
      (s.registerService env ok).2 = [Effect.fatal] ∨
      (s.registerService env ok).2 = [Effect.panic] := by
  cases hl : s.listener with
  | none => right; right; simp [Legacy.Service.registerService, hl]
  | some bound =>
    cases hs : SplitHostPort bound with
    | none => right; left; simp [Legacy.Service.registerService, hl, hs]
    | some pr =>
      obtain ⟨address, portStr⟩ := pr
      by_cases hap : address = [] ∨ portStr = []
      · right; left; simp [Legacy.Service.registerService, hl, hs, hap]
      · cases hport : Atoi (TrimSpace portStr) with
        | none => right; left; simp [Legacy.Service.registerService, hl, hs, hap, hport]
        | some port =>
          left
          push_neg at hap
          exact ⟨bound, address, portStr, port, rfl, hs, hap.1, hap.2, hport⟩

theorem Legacy.mem_watchSpawn (env id : Str) (e : Effect) (h : e ∈ Legacy.watchSpawn env id) :
    e = Effect.goEnablePlanWatch id := by
  unfold Legacy.watchSpawn at h
  split at h
  · simpa using h
  · simp at h

/-- Every register call of the legacy `registerService` carries the record
built from the resolved address, and the receiver then holds its port. -/
theorem Legacy.mem_register (s : Legacy.Service) (env : Str) (ok : Bool)
    (reg : AgentServiceRegistration) (b : Bool)
    (h : Effect.serviceRegister reg b ∈ (s.registerService env ok).2) :
    ∃ address port, reg = s.svcReg address port ∧ b = ok ∧
      (s.registerService env ok).1 = { s with port := port } ∧
      (s.registerService env ok).2 =
        Legacy.watchSpawn env reg.ID ++
          [Effect.serviceRegister reg ok,
            if ok then Effect.goUpdateHealthCheck { s with port := port } else Effect.fatal] := by
  rcases Legacy.registerService_cases s env ok with ⟨bound, address, portStr, port, hl, hs, ha, hp, hport⟩ | hf | hf
  · have e := Legacy.registerService_resolved s env ok bound address portStr port hl hs ha hp hport
    rw [e] at h ⊢
    simp only [List.mem_append, List.mem_cons, List.mem_singleton] at h
    rcases h with h | h | h | h
    · have := Legacy.mem_watchSpawn _ _ _ h
      cases this
    · injection h with h1 h2
      subst h1
      exact ⟨address, port, rfl, h2, rfl, rfl⟩
    · cases ok <;> simp at h
    · simp at h
  · rw [hf] at h; simp at h
  · rw [hf] at h; simp at h


/-- The effects of `discovery.RegisterService`, case by case. -/
theorem Discovery.discoveryRegister_trace (d : Discovery.ServiceDiscovery)
    (service : AgentServiceRegistration) (parseOk ok : Bool) :
    d.RegisterService service parseOk ok =
      if d.IsPlanWatchEnabled = true ∧ parseOk = false then
        (Discovery.Outcome.exited, [Effect.watchParse service.Name, Effect.fatal])
      else
        (if ok then Discovery.Outcome.returnedNil else Discovery.Outcome.returnedError,
          (if d.IsPlanWatchEnabled then
              [Effect.watchParse service.Name, Effect.goRunPlan service.ID]
            else []) ++
            Effect.serviceRegister service ok ::
              (if ok then [Effect.goProbeHealthCheck d service.Check.CheckID] else [])) := by
  unfold Discovery.ServiceDiscovery.RegisterService
  cases d.IsPlanWatchEnabled <;> cases parseOk <;> cases ok <;> simp

/-- The method `RegisterService` of `pkg/dbmservice` once the port has been
resolved: the record of the resolved state is handed to
`discovery.RegisterService`, and an error it returns is fatal. -/
theorem Pkg.pkgRegister_resolved (s : Pkg.Service) (w : Pkg.World) (bound : Str)
    (hl : w.listen (listenAddress s.config.Address s.config.Port) = some bound)
    (hr : (Pkg.Service.resolvePort { s with listener := some bound } bound).2 = true) :
    (s.RegisterService w).1 = (Pkg.Service.resolvePort { s with listener := some bound } bound).1 ∧
    (s.RegisterService w).2 =
      Effect.listen (listenAddress s.config.Address s.config.Port) ::
        ((Discovery.ServiceDiscovery.RegisterService (s.RegisterService w).1.discovery
            (Pkg.Service.svcReg (s.RegisterService w).1) w.parseOk w.registerOk).2 ++
          if (Discovery.ServiceDiscovery.RegisterService (s.RegisterService w).1.discovery
            (Pkg.Service.svcReg (s.RegisterService w).1) w.parseOk w.registerOk).1
              = Discovery.Outcome.returnedError then [Effect.fatal] else []) := by
  constructor
  · simp only [Pkg.Service.RegisterService, hl, hr, if_true]
    split <;> rfl
  · simp only [Pkg.Service.RegisterService, hl, hr, if_true]
    split
    · rename_i h
      simp [h]
    · rename_i h
      simp [h]

/-- The method `RegisterService` of `pkg/dbmservice` either stops at bind or
port resolution, or goes on with the resolved state. -/
theorem Pkg.pkgRegister_cases (s : Pkg.Service) (w : Pkg.World) :
    (s.RegisterService w).2 =
        [Effect.listen (listenAddress s.config.Address s.config.Port), Effect.fatal] ∨
      ∃ bound, w.listen (listenAddress s.config.Address s.config.Port) = some bound ∧
        (Pkg.Service.resolvePort { s with listener := some bound } bound).2 = true ∧
        (s.RegisterService w).1 = (Pkg.Service.resolvePort { s with listener := some bound } bound).1 ∧
        (s.RegisterService w).2 =
          Effect.listen (listenAddress s.config.Address s.config.Port) ::
            ((Discovery.ServiceDiscovery.RegisterService (s.RegisterService w).1.discovery
                (Pkg.Service.svcReg (s.RegisterService w).1) w.parseOk w.registerOk).2 ++
              if (Discovery.ServiceDiscovery.RegisterService (s.RegisterService w).1.discovery
                (Pkg.Service.svcReg (s.RegisterService w).1) w.parseOk w.registerOk).1
                  = Discovery.Outcome.returnedError then [Effect.fatal] else []) := by
  cases hl : w.listen (listenAddress s.config.Address s.config.Port) with
  | none => left; simp [Pkg.Service.RegisterService, hl]
  | some bound =>
    by_cases hr : (Pkg.Service.resolvePort { s with listener := some bound } bound).2 = true
    · right
      exact ⟨bound, rfl, hr, Pkg.pkgRegister_resolved s w bound hl hr⟩
    · left
      simp [Pkg.Service.RegisterService, hl, hr]

/-- Port resolution in `pkg/dbmservice` only touches the listener and the port. -/
theorem Pkg.resolvePort_fields (s : Pkg.Service) (bound : Str) :
    (s.resolvePort bound).1.config.Name = s.config.Name ∧
      (s.resolvePort bound).1.config.Address = s.config.Address ∧
      (s.resolvePort bound).1.config.Tags = s.config.Tags ∧
      (s.resolvePort bound).1.discovery = s.discovery := by
  unfold Pkg.Service.resolvePort
  split
  · simp
  · split
    · simp
    · split <;> simp

/-- When port resolution in `pkg/dbmservice` goes on, the port written is the
one whose canonical decimal form is the trimmed port segment. -/
theorem Pkg.resolvePort_ok (s : Pkg.Service) (bound : Str)
    (h : (s.resolvePort bound).2 = true) :
    ∃ host portStr, SplitHostPort bound = some (host, portStr) ∧
      Atoi (TrimSpace portStr) = some (s.resolvePort bound).1.config.Port ∧
      Itoa (s.resolvePort bound).1.config.Port = TrimSpace portStr := by
  unfold Pkg.Service.resolvePort at h ⊢
  cases hs : SplitHostPort bound with
  | none => simp [hs] at h
  | some pr =>
    obtain ⟨host, portStr⟩ := pr
    by_cases ht : TrimSpace portStr = []
    · simp [hs, ht] at h
    · cases hp : Atoi (TrimSpace portStr) with
      | none => simp [hs, ht, hp] at h
      | some port =>
        simp [hs, ht, hp] at h
        exact ⟨host, portStr, rfl, by simp [ht, hp], by simp [ht, hp, h]⟩

theorem mem_heartbeatLoop (checkID : Str) (responses : List Bool) (e : Effect)
    (h : e ∈ heartbeatLoop checkID responses) :
    e = Effect.fatal ∨ ∃ b, e = Effect.updateTTL checkID b := by
  induction responses with
  | nil => simp [heartbeatLoop] at h
  | cons r rs ih =>
    cases r with
    | true =>
      simp only [heartbeatLoop, List.mem_cons] at h
      rcases h with h | h
      · exact Or.inr ⟨true, h⟩
      · exact ih h
    | false =>
      simp only [heartbeatLoop, List.mem_cons, List.mem_singleton] at h
      rcases h with h | h | h
      · exact Or.inr ⟨false, h⟩
      · exact Or.inl h
      · simp at h

theorem Legacy.mem_updateHealthCheck (s : Legacy.Service) (responses : List Bool) (c : Str)
    (b : Bool) (h : Effect.updateTTL c b ∈ s.updateHealthCheck responses) :
    c = s.serviceID ++ "_health".toList := by
  unfold Legacy.Service.updateHealthCheck at h
  split at h
  · simp at h
  · rcases mem_heartbeatLoop _ _ _ h with h | ⟨b', h⟩
    · cases h
    · injection h with h1 _

theorem Discovery.mem_probeHealthCheck (d : Discovery.ServiceDiscovery) (checkID : Str)
    (responses : List Bool) (c : Str) (b : Bool)
    (h : Effect.updateTTL c b ∈ d.probeHealthCheck checkID responses) : c = checkID := by
  unfold Discovery.ServiceDiscovery.probeHealthCheck at h
  split at h
  · simp at h
  · rcases mem_heartbeatLoop _ _ _ h with h | ⟨b', h⟩
    · cases h
    · injection h with h1 _


theorem mem_run (trace : List Effect) (responses : List Bool) (x : Effect) :
    x ∈ run trace responses ↔ x ∈ trace ∨ ∃ e ∈ trace, x ∈ heartbeatOf responses e := by
  simp [run, List.mem_flatMap]

/-- In a run, an `UpdateTTL` call is issued by a heartbeat goroutine that the
main sequence spawned. -/
theorem updateTTL_mem_run (trace : List Effect) (responses : List Bool) (c : Str) (b : Bool)
    (hmain : ∀ c' b', Effect.updateTTL c' b' ∉ trace)
    (h : Effect.updateTTL c b ∈ run trace responses) :
    (∃ s, Effect.goUpdateHealthCheck s ∈ trace ∧ c = s.serviceID ++ "_health".toList) ∨
      ∃ d, Effect.goProbeHealthCheck d c ∈ trace := by
  rcases (mem_run _ _ _).1 h with h | ⟨e, he, hx⟩
  · exact absurd h (hmain c b)
  · cases e with
    | goUpdateHealthCheck s =>
      exact Or.inl ⟨s, he, Legacy.mem_updateHealthCheck s responses c b hx⟩
    | goProbeHealthCheck d checkID =>
      have := Discovery.mem_probeHealthCheck d checkID responses c b hx
      subst this
      exact Or.inr ⟨d, he⟩
    | _ => simp [heartbeatOf] at hx

/-! ## The claims -/

/-- C1, counterexample: for the non-empty name `" a"` and the port `80` the ID
that `RegisterService` of `pkg/dbmservice` puts in the record is `"a-80"`,
while the name with every `.` replaced by `-`, followed by `-` and the decimal
port, is `" a-80"`. -/
theorem pkg_identifier_leading_space_counterexample :
    (Pkg.Service.svcReg
        { listener := none
          config :=
            { Name := " a".toList, Address := "localhost".toList, Port := 80, Tags := [] }
          discovery :=
            { HealthCheckTTL := 10 * Second, IsPlanWatchEnabled := false,
              Config := DefaultConfig } }).ID = "a-80".toList
      ∧ specServiceIdentifier " a".toList 80 = " a-80".toList
      ∧ (Pkg.Service.svcReg
        { listener := none
          config :=
            { Name := " a".toList, Address := "localhost".toList, Port := 80, Tags := [] }
          discovery :=
            { HealthCheckTTL := 10 * Second, IsPlanWatchEnabled := false,
              Config := DefaultConfig } }).ID ≠ specServiceIdentifier " a".toList 80 := by
  decide

/-- C1, amended: for every name and every port from 0 on (in particular every
port in 0..65535), the legacy `serviceID()` and the ID and check ID of the
legacy record are the identifier and health-check ID of the specification; the
ID in the record of `pkg/dbmservice` is that identifier with its leading white
space trimmed, so it is the identifier itself whenever the name does not start
with white space; the check ID of that record is its ID followed by `_health`;
and the identifier depends on the name and the port only. -/
theorem service_identifier_amended (name : Str) (port : Int) (h0 : 0 ≤ port) :
    (∀ s : Legacy.Service, s.name = name → s.port = port →
        s.serviceID = specServiceIdentifier name port.toNat) ∧
    (∀ (s : Legacy.Service) (address : Str), s.name = name →
        (s.svcReg address port).ID = specServiceIdentifier name port.toNat ∧
        (s.svcReg address port).Check.CheckID = specHealthCheckID name port.toNat) ∧
    (∀ p : Pkg.Service, p.config.Name = name → p.config.Port = port →
        p.svcReg.ID = TrimSpace (specServiceIdentifier name port.toNat) ∧
        p.svcReg.ID = specServiceIdentifier (name.dropWhile IsSpace) port.toNat ∧
        ((∀ c ∈ name.head?, IsSpace c = false) →
          p.svcReg.ID = specServiceIdentifier name port.toNat ∧
          p.svcReg.Check.CheckID = specHealthCheckID name port.toNat) ∧
        p.svcReg.Check.CheckID = p.svcReg.ID ++ "_health".toList) ∧
    (∀ s s' : Legacy.Service, s.name = s'.name → s.port = s'.port →
        s.serviceID = s'.serviceID) ∧
    (∀ p p' : Pkg.Service, p.config.Name = p'.config.Name → p.config.Port = p'.config.Port →
        p.svcReg.ID = p'.svcReg.ID ∧ p.svcReg.Check.CheckID = p'.svcReg.Check.CheckID) := by
  have hpkg : ∀ p : Pkg.Service, p.config.Name = name → p.config.Port = port →
      p.svcReg.ID = specServiceIdentifier (name.dropWhile IsSpace) port.toNat := by
    intro p hn hp
    show TrimSpace (ReplaceAll p.config.Name ".".toList "-".toList ++ "-".toList
      ++ Itoa p.config.Port) = _
    rw [hn, hp, TrimSpace_identifier _ _ h0, ReplaceAll_dot, dropWhile_isSpace_dots,
      Itoa_eq_repr _ h0]
    rfl
  have htrim : TrimSpace (specServiceIdentifier name port.toNat)
      = specServiceIdentifier (name.dropWhile IsSpace) port.toNat := by
    unfold specServiceIdentifier
    rw [← Itoa_eq_repr _ h0, TrimSpace_identifier _ _ h0, dropWhile_isSpace_dots]
  have hhead : (∀ c ∈ name.head?, IsSpace c = false) → name.dropWhile IsSpace = name := by
    intro h
    cases name with
    | nil => rfl
    | cons c cs =>
      have := h c (by simp)
      simp [List.dropWhile, this]
  refine ⟨?_, ?_, ?_, ?_, ?_⟩
  · intro s hn hp
    subst hn hp
    exact Legacy.serviceID_eq_spec s h0
  · intro s address hn
    subst hn
    have e : (s.svcReg address port).ID = specServiceIdentifier s.name port.toNat := by
      have := Legacy.serviceID_eq_spec { s with port := port } h0
      exact this
    refine ⟨e, ?_⟩
    show (s.svcReg address port).ID ++ "_health".toList = _
    rw [e]
    rfl
  · intro p hn hp
    refine ⟨by rw [htrim]; exact hpkg p hn hp, hpkg p hn hp, ?_, rfl⟩
    intro h
    have e : p.svcReg.ID = specServiceIdentifier name port.toNat := by
      rw [hpkg p hn hp, hhead h]
    refine ⟨e, ?_⟩
    show p.svcReg.ID ++ "_health".toList = _
    rw [e]
    rfl
  · intro s s' hn hp
    unfold Legacy.Service.serviceID
    rw [hn, hp]
  · intro p p' hn hp
    simp [Pkg.Service.svcReg, hn, hp]

/-- C1, the amended statement at the name `svc.one` and the port `8080`. -/
theorem service_identifier_amended_witness :
    (0 : Int) ≤ 8080 ∧
    ((∀ s : Legacy.Service, s.name = "svc.one".toList → s.port = 8080 →
        s.serviceID = specServiceIdentifier "svc.one".toList (8080 : Int).toNat) ∧
    (∀ (s : Legacy.Service) (address : Str), s.name = "svc.one".toList →
        (s.svcReg address 8080).ID = specServiceIdentifier "svc.one".toList (8080 : Int).toNat ∧
        (s.svcReg address 8080).Check.CheckID
          = specHealthCheckID "svc.one".toList (8080 : Int).toNat) ∧
    (∀ p : Pkg.Service, p.config.Name = "svc.one".toList → p.config.Port = 8080 →
        p.svcReg.ID = TrimSpace (specServiceIdentifier "svc.one".toList (8080 : Int).toNat) ∧
        p.svcReg.ID
          = specServiceIdentifier ("svc.one".toList.dropWhile IsSpace) (8080 : Int).toNat ∧
        ((∀ c ∈ "svc.one".toList.head?, IsSpace c = false) →
          p.svcReg.ID = specServiceIdentifier "svc.one".toList (8080 : Int).toNat ∧
          p.svcReg.Check.CheckID = specHealthCheckID "svc.one".toList (8080 : Int).toNat) ∧
        p.svcReg.Check.CheckID = p.svcReg.ID ++ "_health".toList) ∧
    (∀ s s' : Legacy.Service, s.name = s'.name → s.port = s'.port →
        s.serviceID = s'.serviceID) ∧
    (∀ p p' : Pkg.Service, p.config.Name = p'.config.Name → p.config.Port = p'.config.Port →
        p.svcReg.ID = p'.svcReg.ID ∧ p.svcReg.Check.CheckID = p'.svcReg.Check.CheckID)) :=
  ⟨by decide, service_identifier_amended "svc.one".toList 8080 (by decide)⟩


theorem Legacy.not_updateTTL_mem (s : Legacy.Service) (env : Str) (ok : Bool) (c : Str) (b : Bool) :
    Effect.updateTTL c b ∉ (s.registerService env ok).2 := by
  intro h
  rcases Legacy.registerService_cases s env ok with
    ⟨bound, address, portStr, port, hl, hs, ha, hp, hport⟩ | hf | hf
  · rw [Legacy.registerService_resolved s env ok bound address portStr port hl hs ha hp hport] at h
    simp only [List.mem_append, List.mem_cons, List.mem_singleton] at h
    rcases h with h | h | h | h
    · cases Legacy.mem_watchSpawn _ _ _ h
    · cases h
    · cases ok <;> simp at h
    · simp at h
  · rw [hf] at h; simp at h
  · rw [hf] at h; simp at h

theorem Discovery.mem_discoveryRegister (d : Discovery.ServiceDiscovery)
    (service : AgentServiceRegistration) (parseOk ok : Bool) (e : Effect)
    (h : e ∈ (d.RegisterService service parseOk ok).2) :
    e = Effect.watchParse service.Name ∨ e = Effect.fatal ∨ e = Effect.goRunPlan service.ID ∨
      e = Effect.serviceRegister service ok ∨
      (ok = true ∧ e = Effect.goProbeHealthCheck d service.Check.CheckID) := by
  rw [Discovery.discoveryRegister_trace] at h
  split at h
  · simp at h
    tauto
  · cases hw : d.IsPlanWatchEnabled <;> cases ok <;> simp [hw] at h <;> tauto

theorem Pkg.mem_pkgRegister (s : Pkg.Service) (w : Pkg.World) (e : Effect)
    (h : e ∈ (s.RegisterService w).2) :
    e = Effect.listen (listenAddress s.config.Address s.config.Port) ∨ e = Effect.fatal ∨
      e ∈ (Discovery.ServiceDiscovery.RegisterService (s.RegisterService w).1.discovery
        (Pkg.Service.svcReg (s.RegisterService w).1) w.parseOk w.registerOk).2 := by
  rcases Pkg.pkgRegister_cases s w with hf | ⟨bound, _, _, _, ht⟩
  · rw [hf] at h
    simp at h
    tauto
  · rw [ht] at h
    simp only [List.mem_cons, List.mem_append] at h
    rcases h with h | h | h
    · exact Or.inl h
    · exact Or.inr (Or.inr h)
    · split at h
      · simp at h
        exact Or.inr (Or.inl h)
      · simp at h

/-- C2: whenever registration proceeds to a register call with record `reg`,
every `UpdateTTL` call of the run carries `reg.Check.CheckID` and every
watcher compares against `reg.ID`; this holds for the legacy
`registerService` (whose heartbeat recomputes the check ID from the receiver
after `s.port` was overwritten) and for `RegisterService` of `pkg/dbmservice`.
When the register call succeeded and the ticker interval is positive, the
first answer of the backend is the answer to an `UpdateTTL` call with that
check ID. -/
theorem heartbeat_and_watch_ids_match :
    (∀ (s : Legacy.Service) (env : Str) (ok : Bool) (responses : List Bool)
        (reg : AgentServiceRegistration) (b : Bool),
        Effect.serviceRegister reg b ∈ (s.registerService env ok).2 →
        (∀ c r, Effect.updateTTL c r ∈ run (s.registerService env ok).2 responses →
          c = reg.Check.CheckID) ∧
        (∀ id, Effect.goEnablePlanWatch id ∈ (s.registerService env ok).2 →
          id = reg.ID ∧
          ∀ parseOk x, Effect.goRunPlan x ∈
            (s.registerService env ok).1.enablePlanWatch id parseOk → x = reg.ID) ∧
        (∀ r rs, b = true → 0 < s.healthCheckTTL.tdiv 2 →
          Effect.updateTTL reg.Check.CheckID r ∈
            run (s.registerService env ok).2 (r :: rs))) ∧
    (∀ (s : Pkg.Service) (w : Pkg.World) (responses : List Bool)
        (reg : AgentServiceRegistration) (b : Bool),
        Effect.serviceRegister reg b ∈ (s.RegisterService w).2 →
        (∀ c r, Effect.updateTTL c r ∈ run (s.RegisterService w).2 responses →
          c = reg.Check.CheckID) ∧
        (∀ id, Effect.goRunPlan id ∈ (s.RegisterService w).2 → id = reg.ID) ∧
        (∀ r rs, b = true → 0 < s.discovery.HealthCheckTTL.tdiv 2 →
          Effect.updateTTL reg.Check.CheckID r ∈ run (s.RegisterService w).2 (r :: rs))) := by
  constructor
  · intro s env ok responses reg b hreg
    obtain ⟨address, port, hrec, hb, hst, htr⟩ := Legacy.mem_register s env ok reg b hreg
    refine ⟨?_, ?_, ?_⟩
    · intro c r hc
      rcases updateTTL_mem_run _ _ c r (fun c' b' => Legacy.not_updateTTL_mem s env ok c' b') hc
        with ⟨s1, hs1, hcs⟩ | ⟨d, hd⟩
      · rw [htr] at hs1
        simp only [List.mem_append, List.mem_cons, List.mem_singleton] at hs1
        rcases hs1 with h | h | h | h
        · cases Legacy.mem_watchSpawn _ _ _ h
        · cases h
        · cases ok
          · simp at h
          · simp at h
            subst h
            rw [hcs, hrec]
            rfl
        · simp at h
      · rw [htr] at hd
        simp only [List.mem_append, List.mem_cons, List.mem_singleton] at hd
        rcases hd with h | h | h | h
        · cases Legacy.mem_watchSpawn _ _ _ h
        · cases h
        · cases ok <;> simp at h
        · simp at h
    · intro id hid
      have hid2 : id = reg.ID := by
        rw [htr] at hid
        simp only [List.mem_append, List.mem_cons, List.mem_singleton] at hid
        rcases hid with h | h | h | h
        · have := Legacy.mem_watchSpawn _ _ _ h
          injection this
        · cases h
        · cases ok <;> simp at h
        · simp at h
      refine ⟨hid2, ?_⟩
      intro parseOk x hx
      unfold Legacy.Service.enablePlanWatch at hx
      cases parseOk <;> simp at hx
      rw [hx, hid2]
    · intro r rs hbt hpos
      subst hb
      subst hbt
      rw [mem_run]
      right
      refine ⟨Effect.goUpdateHealthCheck { s with port := port }, ?_, ?_⟩
      · rw [htr]
        simp
      · have hnp : tickerPanics (s.healthCheckTTL.tdiv 2) = false := by
          simp [tickerPanics, hpos]
        simp only [heartbeatOf, Legacy.Service.updateHealthCheck, hnp]
        rw [hrec]
        cases r <;> simp [heartbeatLoop, Legacy.Service.svcReg]
  · intro s w responses reg b hreg
    have hmem := Pkg.mem_pkgRegister s w
    have hreg2 : reg = Pkg.Service.svcReg (s.RegisterService w).1 ∧ b = w.registerOk := by
      rcases hmem _ hreg with h | h | h
      · cases h
      · cases h
      · rcases Discovery.mem_discoveryRegister _ _ _ _ _ h with h | h | h | h | ⟨_, h⟩
        · cases h
        · cases h
        · cases h
        · injection h with h1 h2
          exact ⟨h1, h2⟩
        · cases h
    refine ⟨?_, ?_, ?_⟩
    · intro c r hc
      have hno : ∀ c' b', Effect.updateTTL c' b' ∉ (s.RegisterService w).2 := by
        intro c' b' h
        rcases hmem _ h with h | h | h
        · cases h
        · cases h
        · rcases Discovery.mem_discoveryRegister _ _ _ _ _ h with h | h | h | h | ⟨_, h⟩ <;> cases h
      rcases updateTTL_mem_run _ _ c r hno hc with ⟨s1, hs1, _⟩ | ⟨d, hd⟩
      · rcases hmem _ hs1 with h | h | h
        · cases h
        · cases h
        · rcases Discovery.mem_discoveryRegister _ _ _ _ _ h with h | h | h | h | ⟨_, h⟩ <;> cases h
      · rcases hmem _ hd with h | h | h
        · cases h
        · cases h
        · rcases Discovery.mem_discoveryRegister _ _ _ _ _ h with h | h | h | h | ⟨_, h⟩
          · cases h
          · cases h
          · cases h
          · cases h
          · injection h with h1 h2
            rw [h2, hreg2.1]
    · intro id hid
      rcases hmem _ hid with h | h | h
      · cases h
      · cases h
      · rcases Discovery.mem_discoveryRegister _ _ _ _ _ h with h | h | h | h | ⟨_, h⟩
        · cases h
        · cases h
        · injection h with h1
          rw [h1, hreg2.1]
        · cases h
        · cases h
    · intro r rs hbt hpos
      have hok : w.registerOk = true := by rw [← hreg2.2, hbt]
      rcases Pkg.pkgRegister_cases s w with hf | ⟨bound, hl, hr, hst, ht⟩
      · rw [hf] at hreg
        simp at hreg
      · have hdisc : (s.RegisterService w).1.discovery = s.discovery := by
          rw [hst]
          exact (Pkg.resolvePort_fields _ bound).2.2.2
        rw [mem_run]
        right
        refine ⟨Effect.goProbeHealthCheck (s.RegisterService w).1.discovery reg.Check.CheckID,
          ?_, ?_⟩
        · rw [ht, Discovery.discoveryRegister_trace, hok, hreg2.1]
          by_cases hw : (s.RegisterService w).1.discovery.IsPlanWatchEnabled = true ∧
              w.parseOk = false
          · exfalso
            rw [ht, Discovery.discoveryRegister_trace] at hreg
            simp [hw] at hreg
          · simp [hw]
        · have hnp : tickerPanics ((s.RegisterService w).1.discovery.HealthCheckTTL.tdiv 2)
              = false := by
            rw [hdisc]
            simp [tickerPanics, hpos]
          simp only [heartbeatOf, Discovery.ServiceDiscovery.probeHealthCheck, hnp]
          cases r <;> simp [heartbeatLoop]

/-- C2, the statement at the sample services bound to `127.0.0.1:8080`. -/
theorem heartbeat_and_watch_ids_match_witness :
    (Effect.serviceRegister (sampleLegacy.svcReg "127.0.0.1".toList 8080) true
        ∈ (sampleLegacy.registerService "true".toList true).2 ∧
      (0 : Int) < sampleLegacy.healthCheckTTL.tdiv 2 ∧
      Effect.updateTTL "svc-one-8080_health".toList true
        ∈ run (sampleLegacy.registerService "true".toList true).2 [true] ∧
      (∀ id, Effect.goEnablePlanWatch id ∈ (sampleLegacy.registerService "true".toList true).2 →
        id = "svc-one-8080".toList)) ∧
    (Effect.serviceRegister
        (Pkg.Service.svcReg
          (samplePkg.RegisterService (sampleWorld "127.0.0.1:8080".toList true true)).1) true
        ∈ (samplePkg.RegisterService (sampleWorld "127.0.0.1:8080".toList true true)).2 ∧
      (0 : Int) < samplePkg.discovery.HealthCheckTTL.tdiv 2 ∧
      Effect.updateTTL "svc-one-8080_health".toList true
        ∈ run (samplePkg.RegisterService (sampleWorld "127.0.0.1:8080".toList true true)).2
            [true] ∧
      (∀ id, Effect.goRunPlan id
          ∈ (samplePkg.RegisterService (sampleWorld "127.0.0.1:8080".toList true true)).2 →
        id = "svc-one-8080".toList)) :=
  ⟨⟨by decide, by decide,
      (heartbeat_and_watch_ids_match.1 sampleLegacy "true".toList true [true]
        (sampleLegacy.svcReg "127.0.0.1".toList 8080) true (by decide)).2.2 true [] rfl
        (by decide),
      fun id h =>
        ((heartbeat_and_watch_ids_match.1 sampleLegacy "true".toList true [true]
          (sampleLegacy.svcReg "127.0.0.1".toList 8080) true (by decide)).2.1 id h).1⟩,
    ⟨by decide, by decide,
      (heartbeat_and_watch_ids_match.2 samplePkg (sampleWorld "127.0.0.1:8080".toList true true)
        [true]
        (Pkg.Service.svcReg
          (samplePkg.RegisterService (sampleWorld "127.0.0.1:8080".toList true true)).1)
        true (by decide)).2.2 true [] rfl (by decide),
      (heartbeat_and_watch_ids_match.2 samplePkg (sampleWorld "127.0.0.1:8080".toList true true)
        [true]
        (Pkg.Service.svcReg
          (samplePkg.RegisterService (sampleWorld "127.0.0.1:8080".toList true true)).1)
        true (by decide)).2.1⟩⟩


/-! ### Port resolution -/

theorem Itoa_clean (P : Int) (h0 : 0 ≤ P) :
    ':' ∉ Itoa P ∧ '[' ∉ Itoa P ∧ ']' ∉ Itoa P := by
  have h := Itoa_all (fun c => c ≠ ':' ∧ c ≠ '[' ∧ c ≠ ']')
    (fun d => ⟨(digitChar_ne d).2.2.1, (digitChar_ne d).2.2.2.1, (digitChar_ne d).2.2.2.2⟩) P h0
  exact ⟨fun e => (h _ e).1 rfl, fun e => (h _ e).2.1 rfl, fun e => (h _ e).2.2 rfl⟩

/-- Port resolution in `pkg/dbmservice` on the address of a listener bound to
host `host` and port `P`. -/
theorem Pkg.resolvePort_join (s : Pkg.Service) (host : Str) (P : Int) (h2 : '[' ∉ host)
    (h3 : ']' ∉ host) (h0 : 0 ≤ P) (h1 : P ≤ maxInt) :
    s.resolvePort (JoinHostPort host (Itoa P))
      = ({ s with config := { s.config with Port := P } }, true) := by
  obtain ⟨p1, p2, p3⟩ := Itoa_clean P h0
  unfold Pkg.Service.resolvePort
  rw [SplitHostPort_Join host (Itoa P) h2 h3 p1 p2 p3]
  simp [TrimSpace_Itoa P h0, Itoa_ne_nil P, Atoi_Itoa P h0 h1]

theorem suffix_pkg_identifier (name : Str) (P : Int) (h0 : 0 ≤ P) :
    List.IsSuffix ("-".toList ++ Itoa P)
      (TrimSpace (ReplaceAll name ".".toList "-".toList ++ "-".toList ++ Itoa P)) := by
  rw [TrimSpace_identifier _ _ h0]
  exact ⟨_, (List.append_assoc _ _ _).symm⟩

/-- C3: for every requested port, when the listener is bound to a host without
square brackets and to a port `P` in 1..65535, so that its address is
`JoinHostPort host P` (that is `host:P`, or `[host]:P` for a host with
colons), `RegisterService` of `pkg/dbmservice` leaves `P` in the port field of
the descriptor, builds a record with port `P` and an ID ending in `-P`, and
registers no other record; the legacy `registerService`, for a non-empty
host, leaves `P` in `s.port` and registers the record with port `P` and an ID
ending in `-P`. When the bound address cannot be split, or its port segment is
not an integer, both stop with a fatal exit and without a register call. -/
theorem bound_port_resolved :
    (∀ (host : Str) (P : Int), '[' ∉ host → ']' ∉ host → 1 ≤ P → P ≤ 65535 →
      (∀ (s : Pkg.Service) (w : Pkg.World),
        w.listen (listenAddress s.config.Address s.config.Port)
          = some (JoinHostPort host (Itoa P)) →
        (s.RegisterService w).1.config.Port = P ∧
        (s.RegisterService w).1.config.Port ≠ 0 ∧
        (Pkg.Service.svcReg (s.RegisterService w).1).Port = P ∧
        List.IsSuffix ("-".toList ++ Itoa P) (Pkg.Service.svcReg (s.RegisterService w).1).ID ∧
        (∀ reg b, Effect.serviceRegister reg b ∈ (s.RegisterService w).2 →
          reg = Pkg.Service.svcReg (s.RegisterService w).1) ∧
        (¬ (s.discovery.IsPlanWatchEnabled = true ∧ w.parseOk = false) →
          Effect.serviceRegister (Pkg.Service.svcReg (s.RegisterService w).1) w.registerOk
            ∈ (s.RegisterService w).2)) ∧
      (host ≠ [] → ∀ (s : Legacy.Service) (env : Str) (ok : Bool),
        s.listener = some (JoinHostPort host (Itoa P)) →
        (s.registerService env ok).1.port = P ∧
        (s.registerService env ok).1.port ≠ 0 ∧
        (s.svcReg host P).Port = P ∧
        List.IsSuffix ("-".toList ++ Itoa P) (s.svcReg host P).ID ∧
        (s.svcReg host P).ID = (s.registerService env ok).1.serviceID ∧
        Effect.serviceRegister (s.svcReg host P) ok ∈ (s.registerService env ok).2 ∧
        (∀ reg b, Effect.serviceRegister reg b ∈ (s.registerService env ok).2 →
          reg = s.svcReg host P))) ∧
    (∀ bound : Str, SplitHostPort bound = none →
      (∀ (s : Pkg.Service) (w : Pkg.World),
        w.listen (listenAddress s.config.Address s.config.Port) = some bound →
        (s.RegisterService w).2
          = [Effect.listen (listenAddress s.config.Address s.config.Port), Effect.fatal]) ∧
      (∀ (s : Legacy.Service) (env : Str) (ok : Bool), s.listener = some bound →
        (s.registerService env ok).2 = [Effect.fatal])) ∧
    (∀ bound host portStr : Str, SplitHostPort bound = some (host, portStr) →
      Atoi (TrimSpace portStr) = none →
      (∀ (s : Pkg.Service) (w : Pkg.World),
        w.listen (listenAddress s.config.Address s.config.Port) = some bound →
        (s.RegisterService w).2
          = [Effect.listen (listenAddress s.config.Address s.config.Port), Effect.fatal]) ∧
      (∀ (s : Legacy.Service) (env : Str) (ok : Bool), s.listener = some bound →
        (s.registerService env ok).2 = [Effect.fatal])) := by
  refine ⟨?_, ?_, ?_⟩
  · intro host P h2 h3 hP1 hP2
    have h0 : 0 ≤ P := by omega
    have hmax : P ≤ maxInt := le_trans hP2 (by decide)
    constructor
    · intro s w hl
      have hr := Pkg.resolvePort_join { s with listener := some (JoinHostPort host (Itoa P)) }
        host P h2 h3 h0 hmax
      have hst : (s.RegisterService w).1
          = { listener := some (JoinHostPort host (Itoa P)),
              config := { s.config with Port := P }, discovery := s.discovery } := by
        simp only [Pkg.Service.RegisterService, hl, hr, if_true]
        split <;> rfl
      have hmem := Pkg.mem_pkgRegister s w
      refine ⟨by rw [hst], by rw [hst]; show P ≠ 0; omega, by rw [hst]; rfl, ?_, ?_, ?_⟩
      · rw [hst]
        exact suffix_pkg_identifier s.config.Name P h0
      · intro reg b hreg
        rcases hmem _ hreg with h | h | h
        · cases h
        · cases h
        · rcases Discovery.mem_discoveryRegister _ _ _ _ _ h with h | h | h | h | ⟨_, h⟩
          · cases h
          · cases h
          · cases h
          · injection h with h1 _
          · cases h
      · intro hw
        have ht := (Pkg.pkgRegister_resolved s w _ hl (by rw [hr])).2
        rw [ht, Discovery.discoveryRegister_trace]
        have hd : (s.RegisterService w).1.discovery = s.discovery := by rw [hst]
        rw [hd]
        simp [hw]
    · intro hne s env ok hl
      obtain ⟨p1, p2, p3⟩ := Itoa_clean P h0
      have hs := SplitHostPort_Join host (Itoa P) h2 h3 p1 p2 p3
      have hport : Atoi (TrimSpace (Itoa P)) = some P := by
        rw [TrimSpace_Itoa P h0, Atoi_Itoa P h0 hmax]
      have e := Legacy.registerService_resolved s env ok _ host (Itoa P) P hl hs hne
        (Itoa_ne_nil P) hport
      refine ⟨by rw [e], by rw [e]; show P ≠ 0; omega, rfl, ?_, by rw [e]; rfl, ?_, ?_⟩
      · exact ⟨_, (List.append_assoc _ _ _).symm⟩
      · rw [e]
        simp
      · intro reg b hreg
        rw [e] at hreg
        simp only [List.mem_append, List.mem_cons, List.mem_singleton] at hreg
        rcases hreg with h | h | h | h
        · cases Legacy.mem_watchSpawn _ _ _ h
        · injection h with h1 _
        · cases ok <;> simp at h
        · simp at h
  · intro bound hs
    constructor
    · intro s w hl
      simp [Pkg.Service.RegisterService, hl, Pkg.Service.resolvePort, hs]
    · intro s env ok hl
      simp [Legacy.Service.registerService, hl, hs]
  · intro bound host portStr hs hp
    constructor
    · intro s w hl
      by_cases ht : TrimSpace portStr = []
      · simp [Pkg.Service.RegisterService, hl, Pkg.Service.resolvePort, hs, ht]
      · simp [Pkg.Service.RegisterService, hl, Pkg.Service.resolvePort, hs, ht, hp]
    · intro s env ok hl
      by_cases ht : host = [] ∨ portStr = []
      · simp [Legacy.Service.registerService, hl, hs, ht]
      · simp [Legacy.Service.registerService, hl, hs, ht, hp]


/-- C3, the statement at a listener bound to `127.0.0.1:8080`, at the bound
address `localhost` (no port) and at the bound address `localhost:http`. -/
theorem bound_port_resolved_witness :
    ('[' ∉ "127.0.0.1".toList ∧ ']' ∉ "127.0.0.1".toList ∧ (1 : Int) ≤ 8080 ∧
      (8080 : Int) ≤ 65535 ∧ "127.0.0.1".toList ≠ [] ∧
      sampleLegacy.listener = some (JoinHostPort "127.0.0.1".toList (Itoa 8080)) ∧
      (samplePkg.RegisterService (sampleWorld "127.0.0.1:8080".toList true true)).1.config.Port
        = 8080 ∧
      Effect.serviceRegister
        (Pkg.Service.svcReg
          (samplePkg.RegisterService (sampleWorld "127.0.0.1:8080".toList true true)).1) true
        ∈ (samplePkg.RegisterService (sampleWorld "127.0.0.1:8080".toList true true)).2 ∧
      (sampleLegacy.registerService "".toList true).1.port = 8080) ∧
    (SplitHostPort "localhost".toList = none ∧
      (samplePkg.RegisterService (sampleWorld "localhost".toList true true)).2
        = [Effect.listen (listenAddress samplePkg.config.Address samplePkg.config.Port),
            Effect.fatal] ∧
      ({ sampleLegacy with listener := some "localhost".toList }.registerService
          "".toList true).2 = [Effect.fatal]) ∧
    (SplitHostPort "localhost:http".toList = some ("localhost".toList, "http".toList) ∧
      Atoi (TrimSpace "http".toList) = none ∧
      (samplePkg.RegisterService (sampleWorld "localhost:http".toList true true)).2
        = [Effect.listen (listenAddress samplePkg.config.Address samplePkg.config.Port),
            Effect.fatal] ∧
      ({ sampleLegacy with listener := some "localhost:http".toList }.registerService
          "".toList true).2 = [Effect.fatal]) :=
  ⟨⟨by decide, by decide, by decide, by decide, by decide, by decide,
      ((bound_port_resolved.1 "127.0.0.1".toList 8080 (by decide) (by decide) (by decide)
        (by decide)).1 samplePkg (sampleWorld "127.0.0.1:8080".toList true true)
        (by decide)).1,
      ((bound_port_resolved.1 "127.0.0.1".toList 8080 (by decide) (by decide) (by decide)
        (by decide)).1 samplePkg (sampleWorld "127.0.0.1:8080".toList true true)
        (by decide)).2.2.2.2.2 (by decide),
      ((bound_port_resolved.1 "127.0.0.1".toList 8080 (by decide) (by decide) (by decide)
        (by decide)).2 (by decide) sampleLegacy "".toList true (by decide)).1⟩,
    ⟨by decide,
      (bound_port_resolved.2.1 "localhost".toList (by decide)).1 samplePkg
        (sampleWorld "localhost".toList true true) rfl,
      (bound_port_resolved.2.1 "localhost".toList (by decide)).2
        { sampleLegacy with listener := some "localhost".toList } "".toList true rfl⟩,
    ⟨by decide, by decide,
      (bound_port_resolved.2.2 "localhost:http".toList "localhost".toList "http".toList
        (by decide) (by decide)).1 samplePkg (sampleWorld "localhost:http".toList true true) rfl,
      (bound_port_resolved.2.2 "localhost:http".toList "localhost".toList "http".toList
        (by decide) (by decide)).2
        { sampleLegacy with listener := some "localhost:http".toList } "".toList true rfl⟩⟩


/-! ### Ordering of the effects -/

theorem afterRegisterFrom_sound (p : Effect → Bool) (trace : List Effect) (seen : Bool)
    (h : afterRegisterFrom p seen trace = true) (pre : List Effect) (e : Effect)
    (post : List Effect) (ht : trace = pre ++ e :: post) (hp : p e = true) :
    seen = true ∨ ∃ r ∈ pre, Effect.isRegisterOk r = true := by
  induction trace generalizing seen pre with
  | nil => simp at ht
  | cons x xs ih =>
    simp only [afterRegisterFrom, Bool.and_eq_true, Bool.or_eq_true, Bool.not_eq_true'] at h
    cases pre with
    | nil =>
      simp only [List.nil_append, List.cons.injEq] at ht
      rw [ht.1] at h
      rcases h.1 with h1 | h1
      · rw [hp] at h1
        cases h1
      · exact Or.inl h1
    | cons y ys =>
      simp only [List.cons_append, List.cons.injEq] at ht
      rcases ih (seen || Effect.isRegisterOk x) h.2 ys ht.2 with h1 | ⟨r, hr, hr2⟩
      · simp only [Bool.or_eq_true] at h1
        rcases h1 with h1 | h1
        · exact Or.inl h1
        · exact Or.inr ⟨x, by rw [ht.1]; simp, h1⟩
      · exact Or.inr ⟨r, by simp [hr], hr2⟩

theorem afterRegister_of_check (p : Effect → Bool) (trace : List Effect)
    (h : afterRegisterFrom p false trace = true) : AfterRegister p trace := by
  intro pre e post ht hp
  rcases afterRegisterFrom_sound p trace false h pre e post ht hp with h1 | h1
  · cases h1
  · exact h1

/-- The effects of a heartbeat goroutine are `UpdateTTL` calls and exits. -/
theorem heartbeatOf_kinds (responses : List Bool) (sp e : Effect)
    (h : e ∈ heartbeatOf responses sp) :
    Effect.isHeartbeatStart sp = true ∧ Effect.isHeartbeatStart e = false ∧
      Effect.isWatchStart e = false ∧ Effect.isRegister e = false := by
  cases sp with
  | goUpdateHealthCheck s =>
    simp only [heartbeatOf, Legacy.Service.updateHealthCheck] at h
    split at h
    · simp at h
      subst h
      exact ⟨rfl, rfl, rfl, rfl⟩
    · rcases mem_heartbeatLoop _ _ _ h with h | ⟨b, h⟩ <;> subst h <;> exact ⟨rfl, rfl, rfl, rfl⟩
  | goProbeHealthCheck d c =>
    simp only [heartbeatOf, Discovery.ServiceDiscovery.probeHealthCheck] at h
    split at h
    · simp at h
      subst h
      exact ⟨rfl, rfl, rfl, rfl⟩
    · rcases mem_heartbeatLoop _ _ _ h with h | ⟨b, h⟩ <;> subst h <;> exact ⟨rfl, rfl, rfl, rfl⟩
  | _ => simp [heartbeatOf] at h

/-- A main sequence that spawns its heartbeat goroutines after a successful
register call gives runs in which every `UpdateTTL` call and every heartbeat
start comes after a successful register call. -/
theorem afterRegister_run (trace : List Effect) (responses : List Bool)
    (hmain : ∀ e ∈ trace, Effect.isUpdateTTL e = false)
    (hspawn : AfterRegister Effect.isHeartbeatStart trace) :
    AfterRegister Effect.isUpdateTTL (run trace responses) ∧
      AfterRegister Effect.isHeartbeatStart (run trace responses) := by
  have key : ∀ pre e post, run trace responses = pre ++ e :: post →
      (e ∈ trace ∧ ∃ post', trace = pre ++ e :: post') ∨
        ∃ mid sp, pre = trace ++ mid ∧ sp ∈ trace ∧ e ∈ heartbeatOf responses sp := by
    intro pre e post ht
    unfold run at ht
    rcases List.append_eq_append_iff.1 ht.symm with ⟨a, h1, h2⟩ | ⟨c, h1, h2⟩
    · cases a with
      | nil =>
        simp only [List.nil_append] at h2
        have he : e ∈ trace.flatMap (heartbeatOf responses) := by rw [← h2]; simp
        obtain ⟨sp, hsp, hesp⟩ := List.mem_flatMap.1 he
        exact Or.inr ⟨[], sp, by simpa using h1.symm, hsp, hesp⟩
      | cons x xs =>
        simp only [List.cons_append, List.cons.injEq] at h2
        left
        rw [← h2.1] at h1
        exact ⟨by rw [h1]; simp, xs, h1⟩
    · have he : e ∈ trace.flatMap (heartbeatOf responses) := by rw [h2]; simp
      obtain ⟨sp, hsp, hesp⟩ := List.mem_flatMap.1 he
      exact Or.inr ⟨c, sp, h1, hsp, hesp⟩
  have fromSpawn : ∀ sp ∈ trace, Effect.isHeartbeatStart sp = true →
      ∃ r ∈ trace, Effect.isRegisterOk r = true := by
    intro sp hsp hk
    obtain ⟨a, b, hab⟩ := List.append_of_mem hsp
    obtain ⟨r, hr, hr2⟩ := hspawn a sp b hab hk
    exact ⟨r, by rw [hab]; simp [hr], hr2⟩
  constructor
  · intro pre e post ht hp
    rcases key pre e post ht with ⟨he, _⟩ | ⟨mid, sp, hpre, hsp, hesp⟩
    · rw [hmain e he] at hp
      cases hp
    · obtain ⟨r, hr, hr2⟩ := fromSpawn sp hsp (heartbeatOf_kinds responses sp e hesp).1
      exact ⟨r, by rw [hpre]; simp [hr], hr2⟩
  · intro pre e post ht hp
    rcases key pre e post ht with ⟨_, post', ht'⟩ | ⟨mid, sp, hpre, hsp, hesp⟩
    · exact hspawn pre e post' ht' hp
    · rw [(heartbeatOf_kinds responses sp e hesp).2.1] at hp
      cases hp


theorem Legacy.legacy_trace_kinds (s : Legacy.Service) (env : Str) (ok : Bool) :
    (∀ e ∈ (s.registerService env ok).2, Effect.isUpdateTTL e = false) ∧
      (ok = false → ∀ e ∈ (s.registerService env ok).2, Effect.isHeartbeatStart e = false) ∧
      afterRegisterFrom Effect.isHeartbeatStart false (s.registerService env ok).2 = true ∧
      ((∃ reg, Effect.serviceRegister reg false ∈ (s.registerService env ok).2) →
        (s.registerService env ok).2.getLast? = some Effect.fatal) := by
  rcases Legacy.registerService_cases s env ok with
    ⟨bound, address, portStr, port, hl, hs, ha, hp, hport⟩ | hf | hf
  · rw [Legacy.registerService_resolved s env ok bound address portStr port hl hs ha hp hport]
    unfold Legacy.watchSpawn
    split <;> cases ok <;>
      simp [afterRegisterFrom, Effect.isUpdateTTL, Effect.isHeartbeatStart, Effect.isRegisterOk]
  · rw [hf]
    simp [afterRegisterFrom, Effect.isUpdateTTL, Effect.isHeartbeatStart]
  · rw [hf]
    simp [afterRegisterFrom, Effect.isUpdateTTL, Effect.isHeartbeatStart]

theorem Discovery.discovery_trace_kinds (d : Discovery.ServiceDiscovery)
    (service : AgentServiceRegistration) (parseOk ok : Bool) :
    (∀ e ∈ (d.RegisterService service parseOk ok).2, Effect.isUpdateTTL e = false) ∧
      (ok = false →
        ∀ e ∈ (d.RegisterService service parseOk ok).2, Effect.isHeartbeatStart e = false) ∧
      afterRegisterFrom Effect.isHeartbeatStart false (d.RegisterService service parseOk ok).2
        = true ∧
      ((∃ reg, Effect.serviceRegister reg false ∈ (d.RegisterService service parseOk ok).2) →
        (d.RegisterService service parseOk ok).1 = Discovery.Outcome.returnedError) := by
  rw [Discovery.discoveryRegister_trace]
  cases d.IsPlanWatchEnabled <;> cases parseOk <;> cases ok <;>
    simp [afterRegisterFrom, Effect.isUpdateTTL, Effect.isHeartbeatStart, Effect.isRegisterOk]

theorem Pkg.pkg_trace_kinds (s : Pkg.Service) (w : Pkg.World) :
    (∀ e ∈ (s.RegisterService w).2, Effect.isUpdateTTL e = false) ∧
      (w.registerOk = false →
        ∀ e ∈ (s.RegisterService w).2, Effect.isHeartbeatStart e = false) ∧
      afterRegisterFrom Effect.isHeartbeatStart false (s.RegisterService w).2 = true ∧
      (w.registerOk = false → (s.RegisterService w).2.getLast? = some Effect.fatal) := by
  rcases Pkg.pkgRegister_cases s w with hf | ⟨bound, _, _, _, ht⟩
  · rw [hf]
    simp [afterRegisterFrom, Effect.isUpdateTTL, Effect.isHeartbeatStart]
  · rw [ht, Discovery.discoveryRegister_trace]
    cases (s.RegisterService w).1.discovery.IsPlanWatchEnabled <;> cases w.parseOk <;>
      cases w.registerOk <;>
      simp [afterRegisterFrom, Effect.isUpdateTTL, Effect.isHeartbeatStart, Effect.isRegisterOk]

/-- Without a heartbeat start in the main sequence, a run is the main
sequence. -/
theorem run_without_heartbeat (trace : List Effect) (responses : List Bool)
    (h : ∀ e ∈ trace, Effect.isHeartbeatStart e = false) : run trace responses = trace := by
  unfold run
  have : trace.flatMap (heartbeatOf responses) = [] := by
    rw [List.flatMap_eq_nil_iff]
    intro sp hsp
    cases hk : heartbeatOf responses sp with
    | nil => rfl
    | cons x xs =>
      have := (heartbeatOf_kinds responses sp x (by rw [hk]; simp)).1
      rw [h sp hsp] at this
      cases this
  rw [this, List.append_nil]

/-- C4: when the backend register call returns an error, the run contains no
heartbeat start and no `UpdateTTL` call, `discovery.RegisterService` returns
the error, `RegisterService` of `pkg/dbmservice` ends with a fatal exit, and
the legacy `registerService` ends with a fatal exit; and in every run every
`UpdateTTL` call and every heartbeat start comes after a register call that
returned success. -/
theorem no_heartbeat_without_registration :
    (∀ (s : Legacy.Service) (env : Str) (responses : List Bool),
      (∀ e ∈ run (s.registerService env false).2 responses,
        Effect.isUpdateTTL e = false ∧ Effect.isHeartbeatStart e = false) ∧
      ((∃ reg, Effect.serviceRegister reg false ∈ (s.registerService env false).2) →
        (s.registerService env false).2.getLast? = some Effect.fatal)) ∧
    (∀ (d : Discovery.ServiceDiscovery) (service : AgentServiceRegistration) (parseOk : Bool)
        (responses : List Bool),
      (∀ e ∈ run (d.RegisterService service parseOk false).2 responses,
        Effect.isUpdateTTL e = false ∧ Effect.isHeartbeatStart e = false) ∧
      ((∃ reg, Effect.serviceRegister reg false ∈ (d.RegisterService service parseOk false).2) →
        (d.RegisterService service parseOk false).1 = Discovery.Outcome.returnedError)) ∧
    (∀ (s : Pkg.Service) (w : Pkg.World) (responses : List Bool), w.registerOk = false →
      (∀ e ∈ run (s.RegisterService w).2 responses,
        Effect.isUpdateTTL e = false ∧ Effect.isHeartbeatStart e = false) ∧
      (s.RegisterService w).2.getLast? = some Effect.fatal) ∧
    (∀ (s : Legacy.Service) (env : Str) (ok : Bool) (responses : List Bool),
      AfterRegister Effect.isUpdateTTL (run (s.registerService env ok).2 responses) ∧
      AfterRegister Effect.isHeartbeatStart (run (s.registerService env ok).2 responses)) ∧
    (∀ (d : Discovery.ServiceDiscovery) (service : AgentServiceRegistration)
        (parseOk ok : Bool) (responses : List Bool),
      AfterRegister Effect.isUpdateTTL (run (d.RegisterService service parseOk ok).2 responses) ∧
      AfterRegister Effect.isHeartbeatStart
        (run (d.RegisterService service parseOk ok).2 responses)) ∧
    (∀ (s : Pkg.Service) (w : Pkg.World) (responses : List Bool),
      AfterRegister Effect.isUpdateTTL (run (s.RegisterService w).2 responses) ∧
      AfterRegister Effect.isHeartbeatStart (run (s.RegisterService w).2 responses)) := by
  refine ⟨?_, ?_, ?_, ?_, ?_, ?_⟩
  · intro s env responses
    obtain ⟨h1, h2, _, h4⟩ := Legacy.legacy_trace_kinds s env false
    rw [run_without_heartbeat _ responses (h2 rfl)]
    exact ⟨fun e he => ⟨h1 e he, h2 rfl e he⟩, h4⟩
  · intro d service parseOk responses
    obtain ⟨h1, h2, _, h4⟩ := Discovery.discovery_trace_kinds d service parseOk false
    rw [run_without_heartbeat _ responses (h2 rfl)]
    exact ⟨fun e he => ⟨h1 e he, h2 rfl e he⟩, h4⟩
  · intro s w responses hw
    obtain ⟨h1, h2, _, h4⟩ := Pkg.pkg_trace_kinds s w
    rw [run_without_heartbeat _ responses (h2 hw)]
    exact ⟨fun e he => ⟨h1 e he, h2 hw e he⟩, h4 hw⟩
  · intro s env ok responses
    obtain ⟨h1, _, h3, _⟩ := Legacy.legacy_trace_kinds s env ok
    exact afterRegister_run _ responses h1 (afterRegister_of_check _ _ h3)
  · intro d service parseOk ok responses
    obtain ⟨h1, _, h3, _⟩ := Discovery.discovery_trace_kinds d service parseOk ok
    exact afterRegister_run _ responses h1 (afterRegister_of_check _ _ h3)
  · intro s w responses
    obtain ⟨h1, _, h3, _⟩ := Pkg.pkg_trace_kinds s w
    exact afterRegister_run _ responses h1 (afterRegister_of_check _ _ h3)

/-- C4, the statement at the sample services with a backend that rejects the
registration. -/
theorem no_heartbeat_without_registration_witness :
    ((∃ reg, Effect.serviceRegister reg false
          ∈ (sampleLegacy.registerService "true".toList false).2) ∧
      (sampleLegacy.registerService "true".toList false).2.getLast? = some Effect.fatal) ∧
    ((∃ reg, Effect.serviceRegister reg false
          ∈ (samplePkg.discovery.RegisterService samplePkg.svcReg true false).2) ∧
      (samplePkg.discovery.RegisterService samplePkg.svcReg true false).1
        = Discovery.Outcome.returnedError) ∧
    ((sampleWorld "127.0.0.1:8080".toList true false).registerOk = false ∧
      (samplePkg.RegisterService (sampleWorld "127.0.0.1:8080".toList true false)).2.getLast?
        = some Effect.fatal ∧
      ∀ e ∈ run (samplePkg.RegisterService (sampleWorld "127.0.0.1:8080".toList true false)).2
          [true, true],
        Effect.isUpdateTTL e = false ∧ Effect.isHeartbeatStart e = false) :=
  ⟨⟨⟨sampleLegacy.svcReg "127.0.0.1".toList 8080, by decide⟩,
      (no_heartbeat_without_registration.1 sampleLegacy "true".toList [true]).2
        ⟨sampleLegacy.svcReg "127.0.0.1".toList 8080, by decide⟩⟩,
    ⟨⟨samplePkg.svcReg, by decide⟩,
      (no_heartbeat_without_registration.2.1 samplePkg.discovery samplePkg.svcReg true
        [true]).2 ⟨samplePkg.svcReg, by decide⟩⟩,
    ⟨rfl,
      (no_heartbeat_without_registration.2.2.1 samplePkg
        (sampleWorld "127.0.0.1:8080".toList true false) [true, true] rfl).2,
      (no_heartbeat_without_registration.2.2.1 samplePkg
        (sampleWorld "127.0.0.1:8080".toList true false) [true, true] rfl).1⟩⟩

/-! ### The watcher -/

theorem beforeRegister_of_split (p : Effect → Bool) (w rest : List Effect)
    (hw : ∀ r ∈ w, Effect.isRegister r = false) (hrest : ∀ e ∈ rest, p e = false) :
    BeforeRegister p (w ++ rest) := by
  intro pre e post ht hp r hr
  rcases List.append_eq_append_iff.1 ht with ⟨a, h1, h2⟩ | ⟨c, h1, h2⟩
  · have he : e ∈ rest := by rw [h2]; simp
    rw [hrest e he] at hp
    cases hp
  · exact hw r (by rw [h1]; simp [hr])

theorem beforeRegister_of_no_register (p : Effect → Bool) (trace : List Effect)
    (h : ∀ r ∈ trace, Effect.isRegister r = false) : BeforeRegister p trace := by
  intro pre e post ht _ r hr
  exact h r (by rw [ht]; simp [hr])

/-- C5, counterexample: with the watcher enabled and a backend that rejects
the registration, `discovery.RegisterService` has parsed the plan and spawned
its run loop before the register call, and the legacy `registerService` has
spawned `enablePlanWatch` before it: a watcher is started although no register
call returned success. The last part is the whole sequence of `RegisterService`
of `pkg/dbmservice` in that situation. -/
theorem watcher_started_despite_failed_register :
    (samplePkg.discovery.RegisterService samplePkg.svcReg true false).2
        = [Effect.watchParse "svc.one".toList, Effect.goRunPlan "svc-one-0".toList,
            Effect.serviceRegister samplePkg.svcReg false] ∧
      ¬ AfterRegister Effect.isWatchStart
          (samplePkg.discovery.RegisterService samplePkg.svcReg true false).2 ∧
      (sampleLegacy.registerService "true".toList false).2
        = [Effect.goEnablePlanWatch "svc-one-8080".toList,
            Effect.serviceRegister (sampleLegacy.svcReg "127.0.0.1".toList 8080) false,
            Effect.fatal] ∧
      ¬ AfterRegister Effect.isWatchStart (sampleLegacy.registerService "true".toList false).2 ∧
      (samplePkg.RegisterService (sampleWorld "127.0.0.1:8080".toList true false)).2
        = [Effect.listen "localhost:0".toList, Effect.watchParse "svc.one".toList,
            Effect.goRunPlan "svc-one-8080".toList,
            Effect.serviceRegister
              (Pkg.Service.svcReg
                (samplePkg.RegisterService (sampleWorld "127.0.0.1:8080".toList true false)).1)
              false,
            Effect.fatal] := by
  refine ⟨by decide, ?_, by decide, ?_, by decide⟩
  · intro h
    obtain ⟨r, hr, _⟩ := h [] (Effect.watchParse "svc.one".toList)
      [Effect.goRunPlan "svc-one-0".toList, Effect.serviceRegister samplePkg.svcReg false]
      (by decide) rfl
    simp at hr
  · intro h
    obtain ⟨r, hr, _⟩ := h [] (Effect.goEnablePlanWatch "svc-one-8080".toList)
      [Effect.serviceRegister (sampleLegacy.svcReg "127.0.0.1".toList 8080) false, Effect.fatal]
      (by decide) rfl
    simp at hr

/-- C5, amended: the membership watcher is started before the backend register
call is issued, whatever the call returns. With the watch flag enabled and the
plan parsed, `discovery.RegisterService` parses the plan, spawns its run loop
and only then calls register; the legacy `registerService`, when
`ENABLE_PLAN_WATCH` parses to true, spawns `enablePlanWatch` right before the
register call. With the flag off no watcher is started. -/
theorem watcher_started_before_register :
    (∀ (d : Discovery.ServiceDiscovery) (service : AgentServiceRegistration)
        (parseOk ok : Bool),
      BeforeRegister Effect.isWatchStart (d.RegisterService service parseOk ok).2 ∧
      (d.IsPlanWatchEnabled = true → parseOk = true →
        ∃ post, (d.RegisterService service parseOk ok).2
          = Effect.watchParse service.Name :: Effect.goRunPlan service.ID ::
              Effect.serviceRegister service ok :: post) ∧
      (d.IsPlanWatchEnabled = false →
        ∀ e ∈ (d.RegisterService service parseOk ok).2, Effect.isWatchStart e = false)) ∧
    (∀ (s : Legacy.Service) (env : Str) (ok : Bool),
      BeforeRegister Effect.isWatchStart (s.registerService env ok).2 ∧
      (ParseBool (TrimSpace env) = some true →
        ∀ reg b, Effect.serviceRegister reg b ∈ (s.registerService env ok).2 →
          ∃ post, (s.registerService env ok).2
            = Effect.goEnablePlanWatch reg.ID :: Effect.serviceRegister reg ok :: post) ∧
      (ParseBool (TrimSpace env) ≠ some true →
        ∀ e ∈ (s.registerService env ok).2, Effect.isWatchStart e = false)) := by
  constructor
  · intro d service parseOk ok
    refine ⟨?_, ?_, ?_⟩
    · rw [Discovery.discoveryRegister_trace]
      split
      · exact beforeRegister_of_no_register _ _ (by simp [Effect.isRegister])
      · exact beforeRegister_of_split _
          (if d.IsPlanWatchEnabled = true then
            [Effect.watchParse service.Name, Effect.goRunPlan service.ID] else [])
          (Effect.serviceRegister service ok ::
            if ok = true then [Effect.goProbeHealthCheck d service.Check.CheckID] else [])
          (by intro r hr; split at hr <;> simp at hr; rcases hr with h | h <;> subst h <;> rfl)
          (by
            intro e he
            cases ok
            · simp at he
              subst he
              rfl
            · simp at he
              rcases he with h | h <;> subst h <;> rfl)
    · intro hw hp
      rw [Discovery.discoveryRegister_trace]
      simp [hw, hp]
    · intro hw
      rw [Discovery.discoveryRegister_trace]
      cases ok <;> simp [hw, Effect.isWatchStart]
  · intro s env ok
    rcases Legacy.registerService_cases s env ok with
      ⟨bound, address, portStr, port, hl, hs, ha, hp, hport⟩ | hf | hf
    · rw [Legacy.registerService_resolved s env ok bound address portStr port hl hs ha hp hport]
      refine ⟨?_, ?_, ?_⟩
      · exact beforeRegister_of_split _ _ _
          (by intro r hr; rw [Legacy.mem_watchSpawn _ _ _ hr]; rfl)
          (by intro e he; cases ok <;> simp at he <;> rcases he with h | h <;> subst h <;> rfl)
      · intro hen reg b hreg
        simp only [List.mem_append, List.mem_cons, List.mem_singleton] at hreg
        rcases hreg with h | h | h | h
        · cases Legacy.mem_watchSpawn _ _ _ h
        · injection h with h1 _
          subst h1
          simp [Legacy.watchSpawn, hen]
        · cases ok <;> simp at h
        · simp at h
      · intro hen
        cases ok <;> simp [Legacy.watchSpawn, hen, Effect.isWatchStart]
    · rw [hf]
      exact ⟨beforeRegister_of_no_register _ _ (by simp [Effect.isRegister]),
        by simp, by simp [Effect.isWatchStart]⟩
    · rw [hf]
      exact ⟨beforeRegister_of_no_register _ _ (by simp [Effect.isRegister]),
        by simp, by simp [Effect.isWatchStart]⟩

/-- C5, the amended statement at the sample services, with the watcher enabled
and with the watcher disabled. -/
theorem watcher_started_before_register_witness :
    (samplePkg.discovery.IsPlanWatchEnabled = true ∧
      ∃ post, (samplePkg.discovery.RegisterService samplePkg.svcReg true false).2
        = Effect.watchParse samplePkg.svcReg.Name :: Effect.goRunPlan samplePkg.svcReg.ID ::
            Effect.serviceRegister samplePkg.svcReg false :: post) ∧
    (({ samplePkg.discovery with IsPlanWatchEnabled := false } :
        Discovery.ServiceDiscovery).IsPlanWatchEnabled = false ∧
      ∀ e ∈ (Discovery.ServiceDiscovery.RegisterService
          { samplePkg.discovery with IsPlanWatchEnabled := false } samplePkg.svcReg true true).2,
        Effect.isWatchStart e = false) ∧
    (ParseBool (TrimSpace "true".toList) = some true ∧
      Effect.serviceRegister (sampleLegacy.svcReg "127.0.0.1".toList 8080) false
        ∈ (sampleLegacy.registerService "true".toList false).2 ∧
      ∃ post, (sampleLegacy.registerService "true".toList false).2
        = Effect.goEnablePlanWatch (sampleLegacy.svcReg "127.0.0.1".toList 8080).ID ::
            Effect.serviceRegister (sampleLegacy.svcReg "127.0.0.1".toList 8080) false ::
            post) ∧
    (ParseBool (TrimSpace "".toList) ≠ some true ∧
      ∀ e ∈ (sampleLegacy.registerService "".toList true).2, Effect.isWatchStart e = false) :=
  ⟨⟨rfl, (watcher_started_before_register.1 samplePkg.discovery samplePkg.svcReg true
        false).2.1 rfl rfl⟩,
    ⟨rfl, (watcher_started_before_register.1
        { samplePkg.discovery with IsPlanWatchEnabled := false } samplePkg.svcReg true
        true).2.2 rfl⟩,
    ⟨by decide, by decide,
      (watcher_started_before_register.2 sampleLegacy "true".toList false).2.1 (by decide)
        (sampleLegacy.svcReg "127.0.0.1".toList 8080) false (by decide)⟩,
    ⟨by decide,
      (watcher_started_before_register.2 sampleLegacy "".toList true).2.2 (by decide)⟩⟩

/-- C6: for every snapshot and every own identifier, both watch handlers (the
one of the legacy `enablePlanWatch` and the one of `discovery.RegisterService`)
emit exactly one "Service instance joined" event, carrying the service of the
last entry, when the snapshot is non-empty and the ID of its last entry differs
from the own identifier, and emit nothing when that ID equals the own
identifier, when the snapshot is empty, and when the result is not a list of
service entries; the entries before the last do not matter. -/
theorem joined_event_of_last_entry :
    (∀ (own : Str) (before : List ServiceEntry) (last : ServiceEntry),
      Legacy.planHandler own (WatchResult.serviceEntries (before ++ [last]))
        = if last.Service.ID ≠ own then [last.Service] else []) ∧
    (∀ own : Str, Legacy.planHandler own (WatchResult.serviceEntries []) = []) ∧
    (∀ own : Str, Legacy.planHandler own WatchResult.other = []) ∧
    (∀ (own : Str) (before before' : List ServiceEntry) (last : ServiceEntry),
      Legacy.planHandler own (WatchResult.serviceEntries (before ++ [last]))
        = Legacy.planHandler own (WatchResult.serviceEntries (before' ++ [last]))) ∧
    (∀ (service : AgentServiceRegistration) (before : List ServiceEntry) (last : ServiceEntry),
      Discovery.planHandler service (WatchResult.serviceEntries (before ++ [last]))
        = if last.Service.ID ≠ service.ID then [last.Service] else []) ∧
    (∀ service : AgentServiceRegistration,
      Discovery.planHandler service (WatchResult.serviceEntries []) = []) ∧
    (∀ service : AgentServiceRegistration,
      Discovery.planHandler service WatchResult.other = []) ∧
    (∀ (service : AgentServiceRegistration) (before before' : List ServiceEntry)
        (last : ServiceEntry),
      Discovery.planHandler service (WatchResult.serviceEntries (before ++ [last]))
        = Discovery.planHandler service (WatchResult.serviceEntries (before' ++ [last]))) := by
  have hl : ∀ (own : Str) (before : List ServiceEntry) (last : ServiceEntry),
      Legacy.planHandler own (WatchResult.serviceEntries (before ++ [last]))
        = if last.Service.ID ≠ own then [last.Service] else [] := by
    intro own before last
    simp [Legacy.planHandler]
  have hd : ∀ (service : AgentServiceRegistration) (before : List ServiceEntry)
      (last : ServiceEntry),
      Discovery.planHandler service (WatchResult.serviceEntries (before ++ [last]))
        = if last.Service.ID ≠ service.ID then [last.Service] else [] := by
    intro service before last
    simp [Discovery.planHandler]
  refine ⟨hl, fun _ => rfl, fun _ => rfl, ?_, hd, fun _ => rfl, fun _ => rfl, ?_⟩
  · intro own before before' last
    rw [hl, hl]
  · intro service before before' last
    rw [hd, hd]


/-! ### Configuration values -/

/-- The legacy `getHealthCheckTTL` on the values for which the 64-bit product
does not overflow: an integer `t` from 5 to 9223372036 gives `t` seconds; a
missing or non-integer value, and an integer below 5, give eight seconds. -/
theorem Legacy.getHealthCheckTTL_in_range (env : Str) :
    (∀ t, Atoi (TrimSpace env) = some t → 5 ≤ t → t ≤ 9223372036 →
      Legacy.getHealthCheckTTL env = t * Second ∧ 5 * Second ≤ Legacy.getHealthCheckTTL env) ∧
    (∀ t, Atoi (TrimSpace env) = some t → t < 5 → Legacy.getHealthCheckTTL env = 8 * Second) ∧
    (Atoi (TrimSpace env) = none → Legacy.getHealthCheckTTL env = 8 * Second) := by
  refine ⟨?_, ?_, ?_⟩
  · intro t ht h5 hmax
    have e : Legacy.getHealthCheckTTL env = t * Second := by
      simp only [Legacy.getHealthCheckTTL, ht, ge_iff_le, h5, if_true, wrapInt64, Second]
      show ((t * 1000000000 + 9223372036854775808) % 18446744073709551616
        - 9223372036854775808 : Int) = t * 1000000000
      omega
    rw [e]
    refine ⟨rfl, ?_⟩
    show ((5 : Int) * 1000000000 ≤ t * 1000000000)
    omega
  · intro t ht h5
    simp [Legacy.getHealthCheckTTL, ht, not_le.2 h5]
  · intro hn
    simp [Legacy.getHealthCheckTTL, hn]

/-- C7, failing input: with `CONSUL_TTL_IN_SECONDS=9223372037` the value parses
as the integer 9223372037, which is at least 5, and the 64-bit product with
`time.Second` wraps around: the legacy `getHealthCheckTTL` returns
-9223372036709551616 nanoseconds, which is neither 9223372037 seconds nor at
least 5 seconds, and the ticker of the heartbeat built from it panics. -/
theorem getHealthCheckTTL_overflow :
    Atoi (TrimSpace "9223372037".toList) = some 9223372037 ∧
    Legacy.getHealthCheckTTL "9223372037".toList = -9223372036709551616 ∧
    Legacy.getHealthCheckTTL "9223372037".toList ≠ 9223372037 * Second ∧
    Legacy.getHealthCheckTTL "9223372037".toList < 5 * Second ∧
    Legacy.Service.updateHealthCheck
      { sampleLegacy with healthCheckTTL := Legacy.getHealthCheckTTL "9223372037".toList }
      [true] = [Effect.panic] := by
  decide

/-- C8, failing input: with `CONSUL_HEALTH_CHECK_TTL=1s` the configuration
path keeps a TTL of one second, below five seconds, in `ServiceDiscovery` and
in the registration record; with `CONSUL_HEALTH_CHECK_TTL=0s` it keeps zero, the
ticker interval `HealthCheckTTL / 2` is zero and the heartbeat panics in
`time.NewTicker` without a single `UpdateTTL` call. -/
theorem config_ttl_without_floor :
    (∀ (unicodeLower : Char → Char) (moduleMD5 : Str) (ttl : Duration),
      (Pkg.NewService unicodeLower moduleMD5 DefaultConfig true
          (sampleConfig 0 "http".toList ttl)).map
        (fun s => (s.discovery.HealthCheckTTL, s.svcReg.Check.TTL,
          s.svcReg.Check.DeregisterCriticalServiceAfter)) = some (ttl, ttl, ttl)) ∧
    (∃ s, Pkg.NewService id [] DefaultConfig true (sampleConfig 0 "http".toList (1 * Second))
        = some s ∧
      s.discovery.HealthCheckTTL = 1 * Second ∧ s.discovery.HealthCheckTTL < 5 * Second ∧
      s.svcReg.Check.TTL < 5 * Second) ∧
    (∃ s, Pkg.NewService id [] DefaultConfig true (sampleConfig 0 "http".toList 0) = some s ∧
      s.discovery.HealthCheckTTL = 0 ∧ ¬ (0 < s.discovery.HealthCheckTTL.tdiv 2) ∧
      s.discovery.probeHealthCheck s.svcReg.Check.CheckID [true] = [Effect.panic]) := by
  refine ⟨?_, ⟨_, rfl, by decide, by decide, by decide⟩, ⟨_, rfl, by decide, by decide, by decide⟩⟩
  intro unicodeLower moduleMD5 ttl
  rfl

/-- C9: the port that `configs.LoadConfigs` returns and the port that the
legacy `getServicePort` returns are in 0..65535: a configured integer in
0..65535 is kept, an integer below 0 or above 65535 becomes 0, and
`getServicePort` also returns 0 for a missing or non-integer value. That port
is the one in the address handed to `net.Listen`, by `RegisterService` of
`pkg/dbmservice` and by the legacy `Start`. -/
theorem bind_port_in_range :
    (∀ (unicodeLower : Char → Char) (moduleMD5 : Str) (cfg : Configs.config),
      0 ≤ (Configs.LoadConfigs unicodeLower moduleMD5 cfg).1.Port ∧
      (Configs.LoadConfigs unicodeLower moduleMD5 cfg).1.Port ≤ 65535 ∧
      (0 ≤ cfg.Service.Port → cfg.Service.Port ≤ 65535 →
        (Configs.LoadConfigs unicodeLower moduleMD5 cfg).1.Port = cfg.Service.Port) ∧
      (cfg.Service.Port < 0 ∨ 65535 < cfg.Service.Port →
        (Configs.LoadConfigs unicodeLower moduleMD5 cfg).1.Port = 0)) ∧
    (∀ env : Str,
      0 ≤ Legacy.getServicePort env ∧ Legacy.getServicePort env ≤ 65535 ∧
      (∀ n, Atoi (TrimSpace env) = some n → 0 ≤ n → n ≤ 65535 →
        Legacy.getServicePort env = n) ∧
      (∀ n, Atoi (TrimSpace env) = some n → n < 0 ∨ 65535 < n →
        Legacy.getServicePort env = 0) ∧
      (Atoi (TrimSpace env) = none → Legacy.getServicePort env = 0)) ∧
    (∀ (unicodeLower : Char → Char) (moduleMD5 : Str) (consulCfg : ConsulConfig)
        (clientOk : Bool) (cfg : Configs.config) (s : Pkg.Service) (w : Pkg.World),
      Pkg.NewService unicodeLower moduleMD5 consulCfg clientOk cfg = some s →
      0 ≤ s.config.Port ∧ s.config.Port ≤ 65535 ∧
      (s.RegisterService w).2.head?
        = some (Effect.listen (listenAddress s.config.Address s.config.Port))) ∧
    (∀ (s : Legacy.Service) (portEnv addressEnv : Str) (listen : Str → Option Str)
        (env : Str) (ok : Bool),
      ∃ address, (Legacy.Service.Start { s with port := Legacy.getServicePort portEnv }
          addressEnv listen env ok).2.head?
        = some (Effect.listen (listenAddress address (Legacy.getServicePort portEnv)))) := by
  have hport : ∀ env : Str, 0 ≤ Legacy.getServicePort env ∧ Legacy.getServicePort env ≤ 65535 := by
    intro env
    unfold Legacy.getServicePort
    split
    · exact ⟨le_refl _, by decide⟩
    · split
      · exact ⟨le_refl _, by decide⟩
      · rename_i h
        push_neg at h
        exact ⟨h.1, h.2⟩
  have hload : ∀ (unicodeLower : Char → Char) (moduleMD5 : Str) (cfg : Configs.config),
      0 ≤ (Configs.LoadConfigs unicodeLower moduleMD5 cfg).1.Port ∧
      (Configs.LoadConfigs unicodeLower moduleMD5 cfg).1.Port ≤ 65535 := by
    intro unicodeLower moduleMD5 cfg
    simp only [Configs.LoadConfigs]
    split
    · exact ⟨le_refl _, by decide⟩
    · rename_i h
      push_neg at h
      exact ⟨h.1, h.2⟩
  refine ⟨?_, ?_, ?_, ?_⟩
  · intro unicodeLower moduleMD5 cfg
    refine ⟨(hload _ _ _).1, (hload _ _ _).2, ?_, ?_⟩
    · intro h0 h1
      have : ¬ (cfg.Service.Port < 0 ∨ cfg.Service.Port > 65535) := by omega
      simp [Configs.LoadConfigs, this]
    · intro h
      have : cfg.Service.Port < 0 ∨ cfg.Service.Port > 65535 := h
      simp [Configs.LoadConfigs, this]
  · intro env
    refine ⟨(hport env).1, (hport env).2, ?_, ?_, ?_⟩
    · intro n hn h0 h1
      have : ¬ (n < 0 ∨ n > 65535) := by omega
      simp [Legacy.getServicePort, hn, this]
    · intro n hn h
      have : n < 0 ∨ n > 65535 := h
      simp [Legacy.getServicePort, hn, this]
    · intro hn
      simp [Legacy.getServicePort, hn]
  · intro unicodeLower moduleMD5 consulCfg clientOk cfg s w h
    have hs : s.config = (Configs.LoadConfigs unicodeLower moduleMD5 cfg).1 := by
      unfold Pkg.NewService at h
      simp only at h
      split at h
      · cases h
      · injection h with h
        rw [← h]
    refine ⟨by rw [hs]; exact (hload _ _ _).1, by rw [hs]; exact (hload _ _ _).2, ?_⟩
    rcases Pkg.pkgRegister_cases s w with hf | ⟨_, _, _, _, ht⟩
    · rw [hf]
      rfl
    · rw [ht]
      rfl
  · intro s portEnv addressEnv listen env ok
    refine ⟨if TrimSpace addressEnv = [] then "localhost".toList else TrimSpace addressEnv, ?_⟩
    simp only [Legacy.Service.Start]
    split <;> rfl

/-- C9, the statement at the configured ports 8080 and 70000 and at the values
`8080`, `70000`, `-1` and `http` of `SERVICE_PORT`. -/
theorem bind_port_in_range_witness :
    (((0 : Int) ≤ (sampleConfig 8080 "http".toList (10 * Second)).Service.Port ∧
        (sampleConfig 8080 "http".toList (10 * Second)).Service.Port ≤ 65535 ∧
        (Configs.LoadConfigs id [] (sampleConfig 8080 "http".toList (10 * Second))).1.Port
          = 8080) ∧
      (((sampleConfig 70000 "http".toList (10 * Second)).Service.Port < 0 ∨
          65535 < (sampleConfig 70000 "http".toList (10 * Second)).Service.Port) ∧
        (Configs.LoadConfigs id [] (sampleConfig 70000 "http".toList (10 * Second))).1.Port
          = 0)) ∧
    ((Atoi (TrimSpace "8080".toList) = some 8080 ∧
        Legacy.getServicePort "8080".toList = 8080) ∧
      (Atoi (TrimSpace "70000".toList) = some 70000 ∧
        Legacy.getServicePort "70000".toList = 0) ∧
      (Atoi (TrimSpace "-1".toList) = some (-1) ∧ Legacy.getServicePort "-1".toList = 0) ∧
      (Atoi (TrimSpace "http".toList) = none ∧ Legacy.getServicePort "http".toList = 0)) ∧
    (Pkg.NewService id [] DefaultConfig true (sampleConfig 70000 "http".toList (10 * Second))
        = some
          { listener := none
            config := (Configs.LoadConfigs id []
              (sampleConfig 70000 "http".toList (10 * Second))).1
            discovery :=
              { HealthCheckTTL := 10 * Second
                IsPlanWatchEnabled := false
                Config := DefaultConfig } } ∧
      (Pkg.Service.RegisterService
          { listener := none
            config := (Configs.LoadConfigs id []
              (sampleConfig 70000 "http".toList (10 * Second))).1
            discovery :=
              { HealthCheckTTL := 10 * Second
                IsPlanWatchEnabled := false
                Config := DefaultConfig } }
          (sampleWorld "127.0.0.1:8080".toList true true)).2.head?
        = some (Effect.listen "localhost:0".toList)) :=
  ⟨⟨⟨by decide, by decide,
        (bind_port_in_range.1 id [] (sampleConfig 8080 "http".toList (10 * Second))).2.2.1
          (by decide) (by decide)⟩,
      ⟨by decide,
        (bind_port_in_range.1 id [] (sampleConfig 70000 "http".toList (10 * Second))).2.2.2
          (by decide)⟩⟩,
    ⟨⟨by decide, (bind_port_in_range.2.1 "8080".toList).2.2.1 8080 (by decide) (by decide)
        (by decide)⟩,
      ⟨by decide, (bind_port_in_range.2.1 "70000".toList).2.2.2.1 70000 (by decide)
        (by decide)⟩,
      ⟨by decide, (bind_port_in_range.2.1 "-1".toList).2.2.2.1 (-1) (by decide) (by decide)⟩,
      ⟨by decide, (bind_port_in_range.2.1 "http".toList).2.2.2.2 (by decide)⟩⟩,
    ⟨by decide,
      (bind_port_in_range.2.2.1 id [] DefaultConfig true
        (sampleConfig 70000 "http".toList (10 * Second)) _
        (sampleWorld "127.0.0.1:8080".toList true true) (by decide)).2.2⟩⟩

theorem Discovery.createConsulConfig_fields (unicodeLower : Char → Char)
    (consulCfg : ConsulConfig) (cfg : Configs.DiscoveryConfig) :
    (Discovery.createConsulConfig unicodeLower consulCfg cfg).Address
      = (if cfg.Address ≠ [] ∧ cfg.Address ≠ TrimSpace (ToLower unicodeLower consulCfg.Address)
          then cfg.Address else consulCfg.Address) ∧
    (Discovery.createConsulConfig unicodeLower consulCfg cfg).Scheme
      = (if cfg.Scheme ≠ [] ∧
            ToLower unicodeLower cfg.Scheme ≠ ToLower unicodeLower consulCfg.Scheme
          then cfg.Scheme else consulCfg.Scheme) := by
  unfold Discovery.createConsulConfig
  constructor <;> split_ifs <;> rfl

/-- The backend connection config that the configuration path uses, for the
backend defaults `127.0.0.1:8500` and `http`: the address is the configured
address lower-cased and trimmed, or the default when that is empty; the scheme
is the configured scheme trimmed, with its case kept, or the default when that
is empty or equal to the default up to case. -/
theorem Discovery.backend_config_used (unicodeLower : Char → Char) (moduleMD5 : Str)
    (cfg : Configs.config) :
    (Discovery.createConsulConfig unicodeLower DefaultConfig
        (Configs.LoadConfigs unicodeLower moduleMD5 cfg).2).Address
      = (if TrimSpace (ToLower unicodeLower cfg.Consul.Address) = [] then DefaultConfig.Address
          else TrimSpace (ToLower unicodeLower cfg.Consul.Address)) ∧
    (Discovery.createConsulConfig unicodeLower DefaultConfig
        (Configs.LoadConfigs unicodeLower moduleMD5 cfg).2).Scheme
      = (if TrimSpace cfg.Consul.Scheme = [] ∨
            ToLower unicodeLower (TrimSpace cfg.Consul.Scheme)
              = ToLower unicodeLower DefaultConfig.Scheme
          then DefaultConfig.Scheme else TrimSpace cfg.Consul.Scheme) := by
  have ha : TrimSpace (ToLower unicodeLower DefaultConfig.Address) = DefaultConfig.Address := rfl
  have e1 : (Configs.LoadConfigs unicodeLower moduleMD5 cfg).2.Address
      = TrimSpace (ToLower unicodeLower cfg.Consul.Address) := rfl
  have e2 : (Configs.LoadConfigs unicodeLower moduleMD5 cfg).2.Scheme
      = TrimSpace cfg.Consul.Scheme := rfl
  rw [(Discovery.createConsulConfig_fields _ _ _).1, (Discovery.createConsulConfig_fields _ _ _).2,
    e1, e2, ha]
  generalize TrimSpace (ToLower unicodeLower cfg.Consul.Address) = a
  generalize TrimSpace cfg.Consul.Scheme = b
  generalize DefaultConfig.Address = da
  generalize DefaultConfig.Scheme = ds
  constructor
  · by_cases h1 : a = []
    · simp [h1]
    · by_cases h2 : a = da
      · simp [h1, h2]
      · simp [h1, h2]
  · by_cases h1 : b = []
    · simp [h1]
    · by_cases h2 : ToLower unicodeLower b = ToLower unicodeLower ds
      · simp [h1, h2]
      · simp [h1, h2]

/-- C10, failing input: with `CONSUL_SCHEME=HTTPS` the scheme of the backend
connection config that the configuration path uses is `HTTPS`, not the
lower-cased `https`, whatever the Unicode case tables are, while the scheme
`HTTP` gives the lower-case default `http` and the address
`Consul.Example:8500` is lower-cased. -/
theorem scheme_case_kept :
    ∀ (unicodeLower : Char → Char) (moduleMD5 : Str),
      (Discovery.createConsulConfig unicodeLower DefaultConfig
          (Configs.LoadConfigs unicodeLower moduleMD5
            (sampleConfig 0 "HTTPS".toList (10 * Second))).2).Scheme = "HTTPS".toList ∧
      ToLower unicodeLower (TrimSpace "HTTPS".toList) = "https".toList ∧
      "HTTPS".toList ≠ "https".toList ∧
      (Discovery.createConsulConfig unicodeLower DefaultConfig
          (Configs.LoadConfigs unicodeLower moduleMD5
            (sampleConfig 0 "HTTP".toList (10 * Second))).2).Scheme = "http".toList ∧
      (Discovery.createConsulConfig unicodeLower DefaultConfig
          (Configs.LoadConfigs unicodeLower moduleMD5
            { sampleConfig 0 "HTTPS".toList (10 * Second) with
              Consul :=
                { Address := " Consul.Example:8500 ".toList
                  Scheme := "HTTPS".toList
                  HealthCheckTTL := 10 * Second
                  EnablePlanWatch := false } }).2).Address = "consul.example:8500".toList := by
  intro unicodeLower moduleMD5
  exact ⟨rfl, rfl, by decide, rfl, rfl⟩

end Dbmservice
